import Mathlib

/-!
# ixugo/amap: cache-aside request layer and tolerant decoding

A shallow embedding of `cache.go`, `client.go`, `geocoding.go` and `ip.go`.

Conventions of the embedding:

* Go `string` and `[]byte` values are both modelled by Lean `String`
  (a `[]byte` body stands for the text it encodes, `string(body)` and
  `[]byte(s)` are the identity);
* a Go result pair `(value, error)` is an `Except String _`, the error being
  represented by its message (`err.Error()`);
* standard-library functions whose code is not part of the repository
  (`json.Marshal`, `json.Unmarshal`, `url.Values.Encode`, the HTTP transport)
  are parameters; `md5.Sum` and `fmt.Sprintf` verbs are written out;
* stateful code is explicit state passing over a `World` that holds the cache
  backend state, the network state and a trace of the effects performed.
-/

namespace Amap

/-! ## `crypto/md5` (RFC 1321), on naturals reduced modulo `2^32` -/

namespace MD5

/-- Per-round left-rotation amounts. -/
def shifts : List Nat :=
  [7, 12, 17, 22, 7, 12, 17, 22, 7, 12, 17, 22, 7, 12, 17, 22,
   5, 9, 14, 20, 5, 9, 14, 20, 5, 9, 14, 20, 5, 9, 14, 20,
   4, 11, 16, 23, 4, 11, 16, 23, 4, 11, 16, 23, 4, 11, 16, 23,
   6, 10, 15, 21, 6, 10, 15, 21, 6, 10, 15, 21, 6, 10, 15, 21]

/-- Sine-derived additive constants, `floor (2^32 * |sin (i + 1)|)`. -/
def table : List Nat :=
  [0xd76aa478, 0xe8c7b756, 0x242070db, 0xc1bdceee,
   0xf57c0faf, 0x4787c62a, 0xa8304613, 0xfd469501,
   0x698098d8, 0x8b44f7af, 0xffff5bb1, 0x895cd7be,
   0x6b901122, 0xfd987193, 0xa679438e, 0x49b40821,
   0xf61e2562, 0xc040b340, 0x265e5a51, 0xe9b6c7aa,
   0xd62f105d, 0x02441453, 0xd8a1e681, 0xe7d3fbc8,
   0x21e1cde6, 0xc33707d6, 0xf4d50d87, 0x455a14ed,
   0xa9e3e905, 0xfcefa3f8, 0x676f02d9, 0x8d2a4c8a,
   0xfffa3942, 0x8771f681, 0x6d9d6122, 0xfde5380c,
   0xa4beea44, 0x4bdecfa9, 0xf6bb4b60, 0xbebfbc70,
   0x289b7ec6, 0xeaa127fa, 0xd4ef3085, 0x04881d05,
   0xd9d4d039, 0xe6db99e5, 0x1fa27cf8, 0xc4ac5665,
   0xf4292244, 0x432aff97, 0xab9423a7, 0xfc93a039,
   0x655b59c3, 0x8f0ccc92, 0xffeff47d, 0x85845dd1,
   0x6fa87e4f, 0xfe2ce6e0, 0xa3014314, 0x4e0811a1,
   0xf7537e82, 0xbd3af235, 0x2ad7d2bb, 0xeb86d391]

/-- Modulus of 32-bit words. -/
def W32 : Nat := 2 ^ 32

/-- Bitwise complement of a 32-bit word. -/
def not32 (x : Nat) : Nat := (W32 - 1) ^^^ (x % W32)

/-- Rotate a 32-bit word left by `s` bits. -/
def rotl32 (x s : Nat) : Nat :=
  (((x % W32) <<< s) % W32) ||| ((x % W32) >>> (32 - s))

/-- The chaining state `(a, b, c, d)`. -/
structure State where
  a : Nat
  b : Nat
  c : Nat
  d : Nat

/-- Initial chaining value. -/
def init : State := ⟨0x67452301, 0xefcdab89, 0x98badcfe, 0x10325476⟩

/-- Little-endian bytes of a word of `n` bytes. -/
def leBytes : Nat → Nat → List Nat
  | 0, _ => []
  | n + 1, x => (x % 256) :: leBytes n (x / 256)

/-- Little-endian value of a list of bytes. -/
def leWord : List Nat → Nat
  | [] => 0
  | b :: bs => b % 256 + 256 * leWord bs

/-- Message padding: a `0x80` byte, zeros up to 56 modulo 64, then the bit
length as a 64-bit little-endian integer. -/
def pad (msg : List Nat) : List Nat :=
  let n := msg.length
  let zeros := (119 - n % 64) % 64
  msg ++ 0x80 :: List.replicate zeros 0 ++ leBytes 8 ((8 * n) % 2 ^ 64)

/-- The sixteen little-endian words of a 64-byte block. -/
def blockWords (block : List Nat) : List Nat :=
  (List.range 16).map fun i => leWord ((block.drop (4 * i)).take 4)

/-- One of the 64 steps of the compression function. -/
def step (m : List Nat) (s : State) (i : Nat) : State :=
  let fg : Nat × Nat :=
    if i < 16 then ((s.b &&& s.c) ||| (not32 s.b &&& s.d), i)
    else if i < 32 then ((s.d &&& s.b) ||| (not32 s.d &&& s.c), (5 * i + 1) % 16)
    else if i < 48 then (s.b ^^^ s.c ^^^ s.d, (3 * i + 5) % 16)
    else (s.c ^^^ (s.b ||| not32 s.d), (7 * i) % 16)
  let f := (fg.1 + s.a + table.getD i 0 + m.getD fg.2 0) % W32
  ⟨s.d, (s.b + rotl32 f (shifts.getD i 0)) % W32, s.b, s.c⟩

/-- Compression of one 64-byte block into the chaining state. -/
def compress (s : State) (block : List Nat) : State :=
  let r := (List.range 64).foldl (step (blockWords block)) s
  ⟨(s.a + r.a) % W32, (s.b + r.b) % W32, (s.c + r.c) % W32, (s.d + r.d) % W32⟩

/-- Fold the compression function over the first `n` 64-byte blocks. -/
def blocks : Nat → State → List Nat → State
  | 0, s, _ => s
  | n + 1, s, bytes => blocks n (compress s (bytes.take 64)) (bytes.drop 64)

/-- The 16-byte digest of a byte sequence, as `md5.Sum` returns it. -/
def sum (msg : List Nat) : List Nat :=
  let p := pad msg
  let s := blocks (p.length / 64) init p
  leBytes 4 s.a ++ leBytes 4 s.b ++ leBytes 4 s.c ++ leBytes 4 s.d

end MD5

/-- UTF-8 bytes of one code point. -/
def utf8EncodeNat (n : Nat) : List Nat :=
  if n < 0x80 then [n]
  else if n < 0x800 then [0xC0 + n / 64, 0x80 + n % 64]
  else if n < 0x10000 then [0xE0 + n / 4096, 0x80 + n / 64 % 64, 0x80 + n % 64]
  else [0xF0 + n / 262144, 0x80 + n / 4096 % 64, 0x80 + n / 64 % 64, 0x80 + n % 64]

/-- The bytes of a Go string. -/
def stringBytes (s : String) : List Nat :=
  s.data.flatMap fun c => utf8EncodeNat c.toNat

/-- Lowercase hexadecimal digit of a value below 16. -/
def hexDigit (n : Nat) : Char :=
  "0123456789abcdef".data.getD n '0'

/-- The `%x` rendering of a byte array: two lowercase hex digits per byte. -/
def hexBytes (bs : List Nat) : String :=
  ⟨bs.flatMap fun b => [hexDigit (b / 16 % 16), hexDigit (b % 16)]⟩

/-- The `md5.Sum` of a Go byte slice. -/
def md5Sum (data : String) : List Nat := MD5.sum (stringBytes data)

/-! ## `cache.go` -/

/-- The `Cache` interface: `Get(key) ([]byte, bool)` and `Set(key, value)`,
over an explicit backend state `σ`. `Get` may update the backend state. -/
structure Cache (σ : Type) where
  Get : σ → String → Option String × σ
  Set : σ → String → String → σ

/-- `generateCacheKey`: `data, _ := json.Marshal(params)` drops the error (the
data is then nil), `hash := md5.Sum(data)`, and the key is
`fmt.Sprintf("%s:%x", prefix, hash)`. -/
def generateCacheKey {P : Type} (marshal : P → Except String String)
    (pfx : String) (params : P) : String :=
  let data : String :=
    match marshal params with
    | .ok d => d
    | .error _ => ""
  let hash := md5Sum data
  pfx ++ ":" ++ hexBytes hash

/-- One entry of the TTL store: a value and its expiry instant. -/
structure Entry where
  value : String
  expiresAt : Int

/-- Modelled from the spec: `conc.TTLMap`, the package `conc` of this
repository, is not among the sources. An in-process map from key to entry;
`evict` records whether a read physically removes an expired entry, which
the spec leaves open. Instants and durations are integers (nanoseconds). -/
structure TTLMap where
  entries : String → Option Entry
  evict : Bool

/-- Modelled from the spec: `conc.NewTTLMap`, the empty store. -/
def NewTTLMap (evict : Bool) : TTLMap := ⟨fun _ => none, evict⟩

/-- Modelled from the spec: `conc.TTLMap.Delete`, removal of a key. -/
def TTLMap.Delete (m : TTLMap) (key : String) : TTLMap :=
  { m with entries := fun k => if k = key then none else m.entries k }

/-- Modelled from the spec: `conc.TTLMap.Load` at instant `now`: absent is
not-found; present with `now >= expires_at` is not-found (lazy expiry, the
entry being removed when `evict` is set); otherwise the value is found. -/
def TTLMap.Load (m : TTLMap) (now : Int) (key : String) : Option String × TTLMap :=
  match m.entries key with
  | none => (none, m)
  | some e =>
    if now ≥ e.expiresAt then (none, if m.evict then m.Delete key else m)
    else (some e.value, m)

/-- Modelled from the spec: `conc.TTLMap.Store` at instant `now`: inserts or
replaces, stamping `expires_at = now + ttl`. -/
def TTLMap.Store (m : TTLMap) (now : Int) (key value : String) (ttl : Int) : TTLMap :=
  { m with entries := fun k => if k = key then some ⟨value, now + ttl⟩ else m.entries k }

/-- Modelled from the spec: the optional background sweep of `conc.TTLMap`,
run at instant `now`, which physically reclaims the expired entries. -/
def TTLMap.Sweep (m : TTLMap) (now : Int) : TTLMap :=
  { m with entries := fun k =>
      match m.entries k with
      | none => none
      | some e => if now ≥ e.expiresAt then none else some e }

/-- `TTLMapCache`: the store-wide `ttl` and the underlying map. -/
structure TTLMapCache where
  ttl : Int
  ttlMap : TTLMap

/-- `NewTTLMapCache(ttl)`. -/
def NewTTLMapCache (evict : Bool) (ttl : Int) : TTLMapCache :=
  { ttl := ttl, ttlMap := NewTTLMap evict }

/-- `TTLMapCache.Get`: `c.ttlMap.Load(key)`, performed at instant `now`. -/
def TTLMapCache.Get (c : TTLMapCache) (now : Int) (key : String) :
    Option String × TTLMapCache :=
  let r := c.ttlMap.Load now key
  (r.1, { c with ttlMap := r.2 })

/-- `TTLMapCache.Set`: `c.ttlMap.Store(key, value, c.ttl)`, at instant `now`. -/
def TTLMapCache.Set (c : TTLMapCache) (now : Int) (key value : String) : TTLMapCache :=
  { c with ttlMap := c.ttlMap.Store now key value c.ttl }

/-- `TTLMapCache.Delete`: `c.ttlMap.Delete(key)`. -/
def TTLMapCache.Delete (c : TTLMapCache) (key : String) : TTLMapCache :=
  { c with ttlMap := c.ttlMap.Delete key }

/-- A step of a `TTLMapCache`: one of its three calls, or a run of the
background sweep of the underlying map. -/
inductive CacheOp where
  | get (key : String)
  | set (key value : String)
  | delete (key : String)
  | sweep

/-- Effect of one step taken at instant `now`. -/
def TTLMapCache.apply (c : TTLMapCache) (now : Int) : CacheOp → TTLMapCache
  | .get key => (c.Get now key).2
  | .set key value => c.Set now key value
  | .delete key => c.Delete key
  | .sweep => { c with ttlMap := c.ttlMap.Sweep now }

/-- Effect of a sequence of timed steps. -/
def TTLMapCache.run (c : TTLMapCache) : List (Int × CacheOp) → TTLMapCache
  | [] => c
  | (now, op) :: rest => (c.apply now op).run rest

/-- The call is a `Set` on `key`. -/
def CacheOp.setsKey (key : String) : CacheOp → Bool
  | .set k _ => k == key
  | _ => false

/-- The call is a `Set` or a `Delete` on `key`. -/
def CacheOp.writesKey (key : String) : CacheOp → Bool
  | .set k _ => k == key
  | .delete k => k == key
  | .get _ => false
  | .sweep => false

/-! ## `client.go` -/

/-- `BaseURL`. -/
def BaseURL : String := "https://restapi.amap.com"

/-- `APIVersion`. -/
def APIVersion : String := "v3"

/-- `url.Values`, a map from a key to its list of values. -/
structure Values where
  entries : List (String × List String)

/-- `url.Values{}`. -/
def Values.empty : Values := ⟨[]⟩

/-- `url.Values.Set`: replaces the values of `key` by the single `value`. -/
def Values.Set (v : Values) (key value : String) : Values :=
  ⟨(key, [value]) :: v.entries.filter fun p => p.1 != key⟩

/-- Outcome of `c.HTTPClient.Get(url)` followed by `io.ReadAll(resp.Body)`:
a transport error, or a response with its status code and the result of
reading its body. -/
inductive HTTPResult where
  | transportError (err : String)
  | response (StatusCode : Int) (Body : Except String String)

/-- Effects observed on the collaborators of a client. -/
inductive Event where
  | cacheGet (key : String)
  | cacheSet (key value : String)
  | httpGet (url : String)
  deriving DecidableEq

/-- The event is a network call. -/
def Event.isHTTP : Event → Bool
  | .httpGet _ => true
  | _ => false

/-- The event is a cache write. -/
def Event.isSet : Event → Bool
  | .cacheSet _ _ => true
  | _ => false

/-- `Client`. The HTTP client is a transition function on a network state
`ν`; `Cache` is `none` for the nil interface. -/
structure Client (σ ν : Type) where
  APIKey : String
  HTTPClient : ν → String → HTTPResult × ν
  BaseURL : String
  Cache : Option (Cache σ)

/-- What a client acts upon: the cache backend state, the network state, and
the trace of the effects performed so far (oldest first). -/
structure World (σ ν : Type) where
  cache : σ
  net : ν
  trace : List Event

/-- Number of network calls recorded in a trace. -/
def httpCalls (trace : List Event) : Nat := trace.countP Event.isHTTP

/-- Number of cache writes recorded in a trace. -/
def cacheSets (trace : List Event) : Nat := trace.countP Event.isSet

/-- `Client.doRequest`: adds the API key, builds the URL, sends the GET,
reads the body and checks the status code. `encode` is `url.Values.Encode`. -/
def Client.doRequest {σ ν : Type} (encode : Values → String) (c : Client σ ν)
    (endpoint : String) (params : Values) (w : World σ ν) :
    Except String String × World σ ν :=
  let params := params.Set "key" c.APIKey
  let fullURL := c.BaseURL ++ "/" ++ APIVersion ++ "/" ++ endpoint ++ "?" ++ encode params
  let r := c.HTTPClient w.net fullURL
  let w1 : World σ ν := { w with net := r.2, trace := w.trace ++ [Event.httpGet fullURL] }
  match r.1 with
  | .transportError err => (.error ("http get err: " ++ err), w1)
  | .response _ (.error err) => (.error ("read response body err: " ++ err), w1)
  | .response StatusCode (.ok body) =>
    if StatusCode ≠ 200 then
      (.error ("HTTP状态码错误: " ++ toString StatusCode ++ ", 响应: " ++ body), w1)
    else
      (.ok body, w1)

/-- `Client.doRequestWithCache`. `marshal` is `json.Marshal` on the type of
`cacheKeyParams`. -/
def Client.doRequestWithCache {σ ν P : Type} (marshal : P → Except String String)
    (encode : Values → String) (c : Client σ ν) (endpoint : String) (params : Values)
    (cacheKeyParams : P) (w : World σ ν) : Except String String × World σ ν :=
  match c.Cache with
  | none => c.doRequest encode endpoint params w
  | some cache =>
    let cacheKey := generateCacheKey marshal endpoint cacheKeyParams
    let g := cache.Get w.cache cacheKey
    let w1 : World σ ν := { w with cache := g.2, trace := w.trace ++ [Event.cacheGet cacheKey] }
    match g.1 with
    | some cachedData => (.ok cachedData, w1)
    | none =>
      match c.doRequest encode endpoint params w1 with
      | (.error err, w2) => (.error err, w2)
      | (.ok data, w2) =>
        (.ok data, { w2 with cache := cache.Set w2.cache cacheKey data,
                             trace := w2.trace ++ [Event.cacheSet cacheKey data] })

/-- `BaseResponse`. -/
structure BaseResponse where
  Status : String
  Info : String
  InfoCode : String

/-- `BaseResponse.IsSuccess`. -/
def BaseResponse.IsSuccess (r : BaseResponse) : Bool := r.Status == "1"

/-- `BaseResponse.GetError`: `none` is the nil error. -/
def BaseResponse.GetError (r : BaseResponse) : Option String :=
  if r.IsSuccess then none
  else some ("API错误: " ++ r.Info ++ " (代码: " ++ r.InfoCode ++ ")")

/-! ## `geocoding.go` -/

/-- `GeocodeRequest`. -/
structure GeocodeRequest where
  Address : String
  City : String

/-- `Geocode`, one geocoding result. -/
structure GeocodeInfo where
  Country : String
  Province : String
  City : String
  CityCode : String
  District : String
  Street : String
  Number : String
  AdCode : String
  Location : String
  Level : String

/-- `GeocodeResponse`. -/
structure GeocodeResponse extends BaseResponse where
  Count : String
  Geocodes : List GeocodeInfo

/-- `Client.Geocode`. `marshal` and `unmarshal` are `json.Marshal` on the
request and `json.Unmarshal` into the response. -/
def Client.Geocode {σ ν : Type} (marshal : GeocodeRequest → Except String String)
    (unmarshal : String → Except String GeocodeResponse) (encode : Values → String)
    (c : Client σ ν) (req : GeocodeRequest) (w : World σ ν) :
    Except String GeocodeResponse × World σ ν :=
  let params := Values.empty
  let params := params.Set "address" req.Address
  let params := if req.City ≠ "" then params.Set "city" req.City else params
  match c.doRequestWithCache marshal encode "geocode/geo" params req w with
  | (.error err, w1) => (.error err, w1)
  | (.ok body, w1) =>
    match unmarshal body with
    | .error err => (.error err, w1)
    | .ok resp =>
      match resp.GetError with
      | some err => (.error err, w1)
      | none => (.ok resp, w1)

/-- `RegeoRequest`. -/
structure RegeoRequest where
  Location : String
  POIType : List String
  Radius : Int
  Extensions : String
  RoadLevel : Int
  HomeOrCorp : Int

/-- A value held by an `interface{}` field after `json.Unmarshal`: nil,
`bool`, `float64`, `string`, `[]interface{}` or `map[string]interface{}`. -/
inductive JSON where
  | null
  | bool (b : Bool)
  | number (n : ℚ)
  | string (s : String)
  | array (elems : List JSON)
  | object (fields : List (String × JSON))

/-- `Neighborhood`. -/
structure Neighborhood where
  Name : List String
  Type_ : List String

/-- `Building`. -/
structure Building where
  Name : List String
  Type_ : List String

/-- `StreetNumber`: every field may be a string or an array. -/
structure StreetNumber where
  Street : JSON
  Number : JSON
  Location : JSON
  Direction : JSON
  Distance : JSON

/-- `StreetNumber.GetStreet`. -/
def StreetNumber.GetStreet (s : StreetNumber) : String :=
  match s.Street with
  | .string v => v
  | .array v =>
    if v.length > 0 then
      match v.head? with
      | some (.string str) => str
      | _ => ""
    else ""
  | _ => ""

/-- `StreetNumber.GetNumber`. -/
def StreetNumber.GetNumber (s : StreetNumber) : String :=
  match s.Number with
  | .string v => v
  | .array v =>
    if v.length > 0 then
      match v.head? with
      | some (.string str) => str
      | _ => ""
    else ""
  | _ => ""

/-- `StreetNumber.GetLocation`. -/
def StreetNumber.GetLocation (s : StreetNumber) : String :=
  match s.Location with
  | .string v => v
  | .array v =>
    if v.length > 0 then
      match v.head? with
      | some (.string str) => str
      | _ => ""
    else ""
  | _ => ""

/-- `StreetNumber.GetDirection`. -/
def StreetNumber.GetDirection (s : StreetNumber) : String :=
  match s.Direction with
  | .string v => v
  | .array v =>
    if v.length > 0 then
      match v.head? with
      | some (.string str) => str
      | _ => ""
    else ""
  | _ => ""

/-- `StreetNumber.GetDistance`. -/
def StreetNumber.GetDistance (s : StreetNumber) : String :=
  match s.Distance with
  | .string v => v
  | .array v =>
    if v.length > 0 then
      match v.head? with
      | some (.string str) => str
      | _ => ""
    else ""
  | _ => ""

/-- The tolerant field decoder as the specification words it: a string is
returned unchanged; an array yields its first element when that is a string;
everything else yields the empty string. -/
def decode : JSON → String
  | .string x => x
  | .array (.string x :: _) => x
  | _ => ""

/-- `BusinessArea`. -/
structure BusinessArea where
  Location : String
  Name : String
  ID : String

/-- `AddressComponent`. -/
structure AddressComponent where
  Country : String
  Province : String
  City : String
  CityCode : String
  District : String
  AdCode : String
  Township : String
  TownCode : String
  Neighborhood : Neighborhood
  Building : Building
  StreetNumber : StreetNumber
  SeaArea : String
  BusinessAreas : List (List BusinessArea)

/-- `POI`. -/
structure POI where
  ID : String
  Name : String
  Type_ : String
  Tel : String
  Distance : String
  Direction : String
  Address : String
  Location : String
  BusinessArea : String

/-- `Road`. -/
structure Road where
  ID : String
  Name : String
  Distance : String
  Direction : String
  Location : String

/-- `RoadInter`. -/
structure RoadInter where
  Distance : String
  Direction : String
  Location : String
  FirstID : String
  FirstName : String
  SecondID : String
  SecondName : String

/-- `AOI`. -/
structure AOI where
  ID : String
  Name : String
  AdCode : String
  Location : String
  Area : String
  Distance : String
  Type_ : String

/-- `Regeocode`. -/
structure Regeocode where
  FormattedAddress : String
  AddressComponent : AddressComponent
  Pois : List POI
  Roads : List Road
  RoadInters : List RoadInter
  BusinessAreas : List BusinessArea
  AOIs : List AOI

/-- `RegeoResponse`. -/
structure RegeoResponse extends BaseResponse where
  Regeocode : Regeocode

/-- `Client.Regeo`. `strconv.Itoa` is the decimal rendering `toString`,
`strings.Join` is `String.intercalate`. -/
def Client.Regeo {σ ν : Type} (marshal : RegeoRequest → Except String String)
    (unmarshal : String → Except String RegeoResponse) (encode : Values → String)
    (c : Client σ ν) (req : RegeoRequest) (w : World σ ν) :
    Except String RegeoResponse × World σ ν :=
  let params := Values.empty
  let params := params.Set "location" req.Location
  let params :=
    if req.POIType.length > 0 then params.Set "poitype" ("|".intercalate req.POIType)
    else params
  let params := if req.Radius > 0 then params.Set "radius" (toString req.Radius) else params
  let params := if req.Extensions ≠ "" then params.Set "extensions" req.Extensions else params
  let params :=
    if req.RoadLevel > 0 then params.Set "roadlevel" (toString req.RoadLevel) else params
  let params :=
    if req.HomeOrCorp > 0 then params.Set "homeorcorp" (toString req.HomeOrCorp) else params
  match c.doRequestWithCache marshal encode "geocode/regeo" params req w with
  | (.error err, w1) => (.error err, w1)
  | (.ok body, w1) =>
    match unmarshal body with
    | .error err => (.error err, w1)
    | .ok resp =>
      match resp.GetError with
      | some err => (.error err, w1)
      | none => (.ok resp, w1)

/-! ## `ip.go` -/

/-- `IPRequest`. -/
structure IPRequest where
  IP : String

/-- `IPResponse`. -/
structure IPResponse extends BaseResponse where
  Province : String
  City : String
  AdCode : String
  Rectangle : String

/-- `Client.IP`. -/
def Client.IP {σ ν : Type} (marshal : IPRequest → Except String String)
    (unmarshal : String → Except String IPResponse) (encode : Values → String)
    (c : Client σ ν) (req : IPRequest) (w : World σ ν) :
    Except String IPResponse × World σ ν :=
  let params := Values.empty
  let params := if req.IP ≠ "" then params.Set "ip" req.IP else params
  match c.doRequestWithCache marshal encode "ip" params req w with
  | (.error err, w1) => (.error err, w1)
  | (.ok body, w1) =>
    match unmarshal body with
    | .error err => (.error err, w1)
    | .ok resp =>
      match resp.GetError with
      | some err => (.error err, w1)
      | none => (.ok resp, w1)

/-! ## Test doubles -/

/-- A network stub counting its invocations: HTTP 200 with body `B1` on the
first one, with body `B2` on every later one. -/
def stubHTTP (B1 B2 : String) : Nat → String → HTTPResult × Nat :=
  fun n _ => (.response 200 (.ok (if n = 0 then B1 else B2)), n + 1)

/-- A network that always answers with the same outcome. -/
def constHTTP (r : HTTPResult) : Unit → String → HTTPResult × Unit :=
  fun _ _ => (r, ())

/-- An in-memory cache without expiry, as a list of bindings (newest first). -/
def mapCache : Cache (List (String × String)) where
  Get := fun s k => ((s.find? fun p => p.1 == k).map Prod.snd, s)
  Set := fun s k v => (k, v) :: s

/-- A query-string rendering used in examples: `k=v` pairs joined by `&`,
without sorting or escaping. -/
def plainEncode (v : Values) : String :=
  "&".intercalate (v.entries.map fun p => p.1 ++ "=" ++ ",".intercalate p.2)

/-- A few Go values as `json.Marshal` sees them; channels and functions have
no JSON form. -/
inductive GoValue where
  | null
  | bool (b : Bool)
  | int (n : Int)
  | chan
  | func
  deriving DecidableEq

/-- `json.Marshal` on `GoValue`. -/
def jsonMarshal : GoValue → Except String String
  | .null => .ok "null"
  | .bool true => .ok "true"
  | .bool false => .ok "false"
  | .int n => .ok (toString n)
  | .chan => .error "json: unsupported type: chan int"
  | .func => .error "json: unsupported type: func()"

/-- A client for examples: key `"K"`, the default base URL, the given
transport and cache. -/
def demoClient {σ ν : Type} (http : ν → String → HTTPResult × ν)
    (cache : Option (Cache σ)) : Client σ ν :=
  { APIKey := "K", HTTPClient := http, BaseURL := BaseURL, Cache := cache }

/-- The query parameters `Client.Geocode` builds. -/
def geocodeParams (req : GeocodeRequest) : Values :=
  let params := Values.empty
  let params := params.Set "address" req.Address
  if req.City ≠ "" then params.Set "city" req.City else params

/-- The query parameters `Client.Regeo` builds. -/
def regeoParams (req : RegeoRequest) : Values :=
  let params := Values.empty
  let params := params.Set "location" req.Location
  let params :=
    if req.POIType.length > 0 then params.Set "poitype" ("|".intercalate req.POIType)
    else params
  let params := if req.Radius > 0 then params.Set "radius" (toString req.Radius) else params
  let params := if req.Extensions ≠ "" then params.Set "extensions" req.Extensions else params
  let params :=
    if req.RoadLevel > 0 then params.Set "roadlevel" (toString req.RoadLevel) else params
  if req.HomeOrCorp > 0 then params.Set "homeorcorp" (toString req.HomeOrCorp) else params

/-- The query parameters `Client.IP` builds. -/
def ipParams (req : IPRequest) : Values :=
  let params := Values.empty
  if req.IP ≠ "" then params.Set "ip" req.IP else params

/-- The message of the error `BaseResponse.GetError` builds. -/
def apiErrorMessage (r : BaseResponse) : String :=
  "API错误: " ++ r.Info ++ " (代码: " ++ r.InfoCode ++ ")"

/-- The body of an upstream answer reporting an invalid key. -/
def invalidKeyBody : String :=
  "\x7b\"status\":\"0\",\"info\":\"INVALID_USER_KEY\",\"infocode\":\"10001\"\x7d"

/-- The `BaseResponse` that `invalidKeyBody` decodes to. -/
def invalidKeyBase : BaseResponse :=
  { Status := "0", Info := "INVALID_USER_KEY", InfoCode := "10001" }

/-- A decoder for examples: `invalidKeyBody` decodes to `r`, anything else is
rejected. -/
def stubUnmarshal {R : Type} (r : R) : String → Except String R :=
  fun body => if body = invalidKeyBody then .ok r else .error "unexpected end of JSON input"

/-- `json.Marshal` on a `GeocodeRequest` whose fields need no escaping. -/
def marshalGeocodeRequest (req : GeocodeRequest) : Except String String :=
  .ok ("\x7b\"Address\":\"" ++ req.Address ++ "\",\"City\":\"" ++ req.City ++ "\"\x7d")

/-- `json.Marshal` on an `IPRequest` whose field needs no escaping. -/
def marshalIPRequest (req : IPRequest) : Except String String :=
  .ok ("\x7b\"IP\":\"" ++ req.IP ++ "\"\x7d")

/-- `json.Marshal` on a `RegeoRequest` whose fields need no escaping; a nil
`POIType` renders as `null`. -/
def marshalRegeoRequest (req : RegeoRequest) : Except String String :=
  let poi :=
    match req.POIType with
    | [] => "null"
    | l => "[" ++ ",".intercalate (l.map fun x => "\"" ++ x ++ "\"") ++ "]"
  .ok ("\x7b\"Location\":\"" ++ req.Location ++ "\",\"POIType\":" ++ poi
    ++ ",\"Radius\":" ++ toString req.Radius
    ++ ",\"Extensions\":\"" ++ req.Extensions
    ++ "\",\"RoadLevel\":" ++ toString req.RoadLevel
    ++ ",\"HomeOrCorp\":" ++ toString req.HomeOrCorp ++ "\x7d")

/-- The request of `TestGeocoding`. -/
def demoGeocodeRequest : GeocodeRequest :=
  { Address := "北京市朝阳区阜通东大街6号", City := "北京" }

/-- A `GeocodeResponse` carrying only the invalid-key envelope. -/
def demoGeocodeResponse : GeocodeResponse :=
  { toBaseResponse := invalidKeyBase, Count := "", Geocodes := [] }

/-- The request of `TestRegeoWithAll`. -/
def demoRegeoRequest : RegeoRequest :=
  { Location := "116.310003,39.991957", POIType := [], Radius := 1000, Extensions := "all",
    RoadLevel := 0, HomeOrCorp := 0 }

/-- A `RegeoResponse` carrying only the invalid-key envelope. -/
def demoRegeoResponse : RegeoResponse :=
  { toBaseResponse := invalidKeyBase,
    Regeocode :=
      { FormattedAddress := "",
        AddressComponent :=
          { Country := "", Province := "", City := "", CityCode := "", District := "",
            AdCode := "", Township := "", TownCode := "",
            Neighborhood := { Name := [], Type_ := [] },
            Building := { Name := [], Type_ := [] },
            StreetNumber :=
              { Street := .null, Number := .null, Location := .null, Direction := .null,
                Distance := .null },
            SeaArea := "", BusinessAreas := [] },
        Pois := [], Roads := [], RoadInters := [], BusinessAreas := [], AOIs := [] } }

/-- The request of `TestIP`. -/
def demoIPRequest : IPRequest := { IP := "114.247.50.2" }

/-- An `IPResponse` carrying only the invalid-key envelope. -/
def demoIPResponse : IPResponse :=
  { toBaseResponse := invalidKeyBase, Province := "", City := "", AdCode := "", Rectangle := "" }

/-- A client with an empty in-memory cache whose upstream answers every
request with HTTP 200 and the invalid-key body. -/
def invalidKeyClient : Client (List (String × String)) Unit :=
  demoClient (constHTTP (.response 200 (.ok invalidKeyBody))) (some mapCache)

/-- A client with an in-memory cache whose upstream answers every request with
HTTP 500 and the body `"oops"`. -/
def failingClient : Client (List (String × String)) Unit :=
  demoClient (constHTTP (.response 500 (.ok "oops"))) (some mapCache)

/-- A client with an in-memory cache behind the `B1`-then-`B2` stub. -/
def stubClient : Client (List (String × String)) Nat :=
  demoClient (stubHTTP "B1" "B2") (some mapCache)

/-- A client without cache behind the `B1`-then-`B2` stub. -/
def plainClient : Client Unit Nat :=
  demoClient (stubHTTP "B1" "B2") none

/-! ## Derived notions used in the statements -/

/-- The URL `doRequest` fetches. -/
def Client.fullURL {σ ν : Type} (encode : Values → String) (c : Client σ ν)
    (endpoint : String) (params : Values) : String :=
  c.BaseURL ++ "/" ++ APIVersion ++ "/" ++ endpoint ++ "?" ++ encode (params.Set "key" c.APIKey)

/-- The world after the network call of `doRequest`. -/
def afterHTTP {σ ν : Type} (encode : Values → String) (c : Client σ ν) (endpoint : String)
    (params : Values) (w : World σ ν) : World σ ν :=
  { w with net := (c.HTTPClient w.net (c.fullURL encode endpoint params)).2,
           trace := w.trace ++ [Event.httpGet (c.fullURL encode endpoint params)] }

/-- The world a cache miss answered by HTTP 200 with body `b` leads to. -/
def afterMiss {σ ν P : Type} (marshal : P → Except String String) (encode : Values → String)
    (c : Client σ ν) (cache : Cache σ) (endpoint : String) (params : Values)
    (cacheKeyParams : P) (w : World σ ν) (b : String) : World σ ν :=
  { cache := cache.Set
      (cache.Get w.cache (generateCacheKey marshal endpoint cacheKeyParams)).2
      (generateCacheKey marshal endpoint cacheKeyParams) b,
    net := (c.HTTPClient w.net (c.fullURL encode endpoint params)).2,
    trace := w.trace ++
      [Event.cacheGet (generateCacheKey marshal endpoint cacheKeyParams),
       Event.httpGet (c.fullURL encode endpoint params),
       Event.cacheSet (generateCacheKey marshal endpoint cacheKeyParams) b] }

/-- Lowercase hexadecimal rendering of a byte sequence, as the specification
words it: every byte is written in base 16 with the digits `0-9a-f`, padded to
two digits. -/
def hexLower (bs : List Nat) : String :=
  ⟨bs.flatMap fun b =>
    let ds := Nat.toDigits 16 b
    if ds.length < 2 then '0' :: ds else ds⟩

/-- The fingerprint as the specification words it: the namespace, `":"`, and
the hexadecimal rendering of the content hash of the serialized parameters. -/
def fingerprint (ns : String) (serialized : String) : String :=
  ns ++ ":" ++ hexLower (md5Sum serialized)

/-- The characters `0-9a-f`. -/
def isLowerHex (ch : Char) : Bool :=
  ('0' ≤ ch && ch ≤ '9') || ('a' ≤ ch && ch ≤ 'f')

/-! ## Lemmas on the request layer -/

section Lemmas

variable {σ ν P : Type}

theorem doRequest_snd (encode : Values → String) (c : Client σ ν) (endpoint : String)
    (params : Values) (w : World σ ν) :
    (c.doRequest encode endpoint params w).2 = afterHTTP encode c endpoint params w := by
  unfold Client.doRequest afterHTTP Client.fullURL
  dsimp only
  split
  · rfl
  · rfl
  · split <;> rfl

theorem doRequest_of_ok (encode : Values → String) (c : Client σ ν) (endpoint : String)
    (params : Values) (w : World σ ν) (b : String)
    (h : (c.HTTPClient w.net (c.fullURL encode endpoint params)).1 = .response 200 (.ok b)) :
    c.doRequest encode endpoint params w = (.ok b, afterHTTP encode c endpoint params w) := by
  unfold Client.fullURL at h
  unfold Client.doRequest afterHTTP Client.fullURL
  simp only [h]
  simp

theorem doRequestWithCache_hit (marshal : P → Except String String)
    (encode : Values → String) (c : Client σ ν) (cache : Cache σ) (hc : c.Cache = some cache)
    (endpoint : String) (params : Values) (cacheKeyParams : P) (w : World σ ν) (v : String)
    (h : (cache.Get w.cache (generateCacheKey marshal endpoint cacheKeyParams)).1 = some v) :
    c.doRequestWithCache marshal encode endpoint params cacheKeyParams w =
      (.ok v, { w with
        cache := (cache.Get w.cache (generateCacheKey marshal endpoint cacheKeyParams)).2,
        trace := w.trace ++ [Event.cacheGet (generateCacheKey marshal endpoint cacheKeyParams)] }) := by
  unfold Client.doRequestWithCache
  simp only [hc, h]

theorem doRequestWithCache_miss (marshal : P → Except String String)
    (encode : Values → String) (c : Client σ ν) (cache : Cache σ) (hc : c.Cache = some cache)
    (endpoint : String) (params : Values) (cacheKeyParams : P) (w : World σ ν)
    (h : (cache.Get w.cache (generateCacheKey marshal endpoint cacheKeyParams)).1 = none) :
    c.doRequestWithCache marshal encode endpoint params cacheKeyParams w =
      match c.doRequest encode endpoint params { w with
          cache := (cache.Get w.cache (generateCacheKey marshal endpoint cacheKeyParams)).2,
          trace := w.trace ++
            [Event.cacheGet (generateCacheKey marshal endpoint cacheKeyParams)] } with
      | (.error err, w2) => (.error err, w2)
      | (.ok data, w2) =>
        (.ok data, { w2 with
          cache := cache.Set w2.cache (generateCacheKey marshal endpoint cacheKeyParams) data,
          trace := w2.trace ++
            [Event.cacheSet (generateCacheKey marshal endpoint cacheKeyParams) data] }) := by
  unfold Client.doRequestWithCache
  simp only [hc, h]

theorem doRequestWithCache_miss_ok (marshal : P → Except String String)
    (encode : Values → String) (c : Client σ ν) (cache : Cache σ) (hc : c.Cache = some cache)
    (endpoint : String) (params : Values) (cacheKeyParams : P) (w : World σ ν) (b : String)
    (hmiss : (cache.Get w.cache (generateCacheKey marshal endpoint cacheKeyParams)).1 = none)
    (hhttp : (c.HTTPClient w.net (c.fullURL encode endpoint params)).1
      = .response 200 (.ok b)) :
    c.doRequestWithCache marshal encode endpoint params cacheKeyParams w =
      (.ok b,
        { cache := cache.Set
            (cache.Get w.cache (generateCacheKey marshal endpoint cacheKeyParams)).2
            (generateCacheKey marshal endpoint cacheKeyParams) b,
          net := (c.HTTPClient w.net (c.fullURL encode endpoint params)).2,
          trace := w.trace ++
            [Event.cacheGet (generateCacheKey marshal endpoint cacheKeyParams),
             Event.httpGet (c.fullURL encode endpoint params),
             Event.cacheSet (generateCacheKey marshal endpoint cacheKeyParams) b] }) := by
  rw [doRequestWithCache_miss marshal encode c cache hc endpoint params cacheKeyParams w hmiss,
    doRequest_of_ok encode c endpoint params
      ⟨(cache.Get w.cache (generateCacheKey marshal endpoint cacheKeyParams)).2, w.net,
        w.trace ++ [Event.cacheGet (generateCacheKey marshal endpoint cacheKeyParams)]⟩ b hhttp]
  simp [afterHTTP]

theorem getError_of_status_ne (r : BaseResponse) (h : r.Status ≠ "1") :
    r.GetError = some (apiErrorMessage r) := by
  simp [BaseResponse.GetError, BaseResponse.IsSuccess, h, apiErrorMessage]

theorem geocode_api_error (marshal : GeocodeRequest → Except String String)
    (unmarshal : String → Except String GeocodeResponse) (encode : Values → String)
    (c : Client σ ν) (cache : Cache σ) (hc : c.Cache = some cache) (req : GeocodeRequest)
    (w : World σ ν) (body : String) (resp : GeocodeResponse)
    (hmiss : (cache.Get w.cache (generateCacheKey marshal "geocode/geo" req)).1 = none)
    (hhttp : (c.HTTPClient w.net (c.fullURL encode "geocode/geo" (geocodeParams req))).1
      = .response 200 (.ok body))
    (hdec : unmarshal body = .ok resp) (hst : resp.Status ≠ "1") :
    c.Geocode marshal unmarshal encode req w =
      (.error (apiErrorMessage resp.toBaseResponse),
        afterMiss marshal encode c cache "geocode/geo" (geocodeParams req) req w body) := by
  have h := doRequestWithCache_miss_ok marshal encode c cache hc "geocode/geo"
    (geocodeParams req) req w body hmiss hhttp
  unfold geocodeParams at h
  unfold Client.Geocode afterMiss geocodeParams
  simp only [h, hdec, getError_of_status_ne _ hst]

theorem regeo_api_error (marshal : RegeoRequest → Except String String)
    (unmarshal : String → Except String RegeoResponse) (encode : Values → String)
    (c : Client σ ν) (cache : Cache σ) (hc : c.Cache = some cache) (req : RegeoRequest)
    (w : World σ ν) (body : String) (resp : RegeoResponse)
    (hmiss : (cache.Get w.cache (generateCacheKey marshal "geocode/regeo" req)).1 = none)
    (hhttp : (c.HTTPClient w.net (c.fullURL encode "geocode/regeo" (regeoParams req))).1
      = .response 200 (.ok body))
    (hdec : unmarshal body = .ok resp) (hst : resp.Status ≠ "1") :
    c.Regeo marshal unmarshal encode req w =
      (.error (apiErrorMessage resp.toBaseResponse),
        afterMiss marshal encode c cache "geocode/regeo" (regeoParams req) req w body) := by
  have h := doRequestWithCache_miss_ok marshal encode c cache hc "geocode/regeo"
    (regeoParams req) req w body hmiss hhttp
  unfold regeoParams at h
  unfold Client.Regeo afterMiss regeoParams
  simp only [h, hdec, getError_of_status_ne _ hst]

theorem ip_api_error (marshal : IPRequest → Except String String)
    (unmarshal : String → Except String IPResponse) (encode : Values → String)
    (c : Client σ ν) (cache : Cache σ) (hc : c.Cache = some cache) (req : IPRequest)
    (w : World σ ν) (body : String) (resp : IPResponse)
    (hmiss : (cache.Get w.cache (generateCacheKey marshal "ip" req)).1 = none)
    (hhttp : (c.HTTPClient w.net (c.fullURL encode "ip" (ipParams req))).1
      = .response 200 (.ok body))
    (hdec : unmarshal body = .ok resp) (hst : resp.Status ≠ "1") :
    c.IP marshal unmarshal encode req w =
      (.error (apiErrorMessage resp.toBaseResponse),
        afterMiss marshal encode c cache "ip" (ipParams req) req w body) := by
  have h := doRequestWithCache_miss_ok marshal encode c cache hc "ip"
    (ipParams req) req w body hmiss hhttp
  unfold ipParams at h
  unfold Client.IP afterMiss ipParams
  simp only [h, hdec, getError_of_status_ne _ hst]

end Lemmas

/-! ## Lemmas on keys -/

theorem md5_sum_length (msg : List Nat) : (MD5.sum msg).length = 16 := by
  simp [MD5.sum, MD5.leBytes]

theorem hexBytes_length (bs : List Nat) : (hexBytes bs).data.length = 2 * bs.length := by
  induction bs with
  | nil => rfl
  | cons b bs ih =>
    simp only [hexBytes, List.flatMap_cons, List.length_append, List.length_cons,
      List.length_nil] at ih ⊢
    omega

theorem generateCacheKey_data {P : Type} (marshal : P → Except String String)
    (pfx : String) (params : P) :
    ∃ h : List Char, h.length = 32 ∧
      (generateCacheKey marshal pfx params).data = pfx.data ++ ':' :: h := by
  refine ⟨(hexBytes (md5Sum (match marshal params with
    | .ok d => d
    | .error _ => ""))).data, ?_, ?_⟩
  · rw [hexBytes_length, md5Sum, md5_sum_length]
  · simp [generateCacheKey, String.data_append]

set_option maxRecDepth 100000 in
theorem md5_empty : hexBytes (md5Sum "") = "d41d8cd98f00b204e9800998ecf8427e" := by
  decide

theorem generateCacheKey_of_error {P : Type} (marshal : P → Except String String)
    (pfx : String) (params : P) (e : String) (h : marshal params = .error e) :
    generateCacheKey marshal pfx params = pfx ++ ":d41d8cd98f00b204e9800998ecf8427e" := by
  unfold generateCacheKey
  simp only [h, md5_empty, String.append_assoc]
  rfl

theorem hexDigit_cases (n : Nat) :
    hexDigit n ∈ ['0', '1', '2', '3', '4', '5', '6', '7', '8', '9', 'a', 'b', 'c', 'd', 'e', 'f'] := by
  by_cases h : n < 16
  · interval_cases n <;> simp [hexDigit, List.getD]
  · have : hexDigit n = '0' := by
      unfold hexDigit
      exact List.getD_eq_default _ _ (by simpa using h)
    simp [this]

theorem hexDigit_isLowerHex (n : Nat) : isLowerHex (hexDigit n) = true := by
  have h := hexDigit_cases n
  simp only [List.mem_cons, List.mem_singleton, List.not_mem_nil, or_false] at h
  rcases h with h | h | h | h | h | h | h | h | h | h | h | h | h | h | h | h <;>
    (rw [h]; decide)

theorem hexDigit_ascii (n : Nat) : utf8EncodeNat (hexDigit n).toNat = [(hexDigit n).toNat] := by
  have h := hexDigit_cases n
  simp only [List.mem_cons, List.mem_singleton, List.not_mem_nil, or_false] at h
  rcases h with h | h | h | h | h | h | h | h | h | h | h | h | h | h | h | h <;>
    (rw [h]; decide)

theorem hexBytes_isLowerHex (bs : List Nat) :
    ∀ ch ∈ (hexBytes bs).data, isLowerHex ch = true := by
  intro ch hch
  simp only [hexBytes, List.mem_flatMap, List.mem_cons, List.mem_singleton, List.not_mem_nil,
    or_false] at hch
  obtain ⟨b, _, h | h⟩ := hch <;> (rw [h]; exact hexDigit_isLowerHex _)

theorem stringBytes_append (a b : String) :
    stringBytes (a ++ b) = stringBytes a ++ stringBytes b := by
  simp [stringBytes, String.data_append, List.flatMap_append]

theorem stringBytes_hexBytes_length (bs : List Nat) :
    (stringBytes (hexBytes bs)).length = 2 * bs.length := by
  induction bs with
  | nil => rfl
  | cons b bs ih =>
    simp only [stringBytes, hexBytes, List.flatMap_cons, List.flatMap_append, List.flatMap_nil,
      List.length_append, List.length_cons, hexDigit_ascii, List.length_nil,
      List.append_nil] at ih ⊢
    omega

theorem leBytes_lt (n x : Nat) : ∀ b ∈ MD5.leBytes n x, b < 256 := by
  induction n generalizing x with
  | zero => intro b hb; simp [MD5.leBytes] at hb
  | succ n ih =>
    intro b hb
    simp only [MD5.leBytes, List.mem_cons] at hb
    rcases hb with hb | hb
    · rw [hb]; exact Nat.mod_lt _ (by decide)
    · exact ih _ b hb

theorem md5_sum_lt (msg : List Nat) : ∀ b ∈ MD5.sum msg, b < 256 := by
  intro b hb
  simp only [MD5.sum, List.mem_append] at hb
  rcases hb with ((hb | hb) | hb) | hb <;> exact leBytes_lt _ _ b hb

set_option maxRecDepth 100000 in
theorem hex_byte_agree : ∀ b < 256,
    [hexDigit (b / 16 % 16), hexDigit (b % 16)]
      = (if (Nat.toDigits 16 b).length < 2 then '0' :: Nat.toDigits 16 b
          else Nat.toDigits 16 b) := by
  decide

theorem hexBytes_eq_hexLower (bs : List Nat) (h : ∀ b ∈ bs, b < 256) :
    hexBytes bs = hexLower bs := by
  unfold hexBytes hexLower
  congr 1
  induction bs with
  | nil => rfl
  | cons b bs ih =>
    simp only [List.flatMap_cons]
    rw [ih (fun x hx => h x (List.mem_cons_of_mem _ hx)),
      hex_byte_agree b (h b (List.mem_cons_self _ _))]

/-! ## Lemmas on the TTL store -/

theorem apply_expiry_bound (k : String) (bound : Int) (c : TTLMapCache) (now : Int)
    (op : CacheOp) (hop : op.setsKey k = false)
    (hc : ∀ e, c.ttlMap.entries k = some e → e.expiresAt ≤ bound) :
    ∀ e, (c.apply now op).ttlMap.entries k = some e → e.expiresAt ≤ bound := by
  intro e
  cases op with
  | get key =>
    simp only [TTLMapCache.apply, TTLMapCache.Get, TTLMap.Load]
    split
    · exact hc e
    · split
      · split
        · simp only [TTLMap.Delete]
          split
          · intro h; cases h
          · exact hc e
        · exact hc e
      · exact hc e
  | set key value =>
    simp only [CacheOp.setsKey, beq_eq_false_iff_ne, ne_eq] at hop
    simp only [TTLMapCache.apply, TTLMapCache.Set, TTLMap.Store]
    rw [if_neg (fun h => hop h.symm)]
    exact hc e
  | delete key =>
    simp only [TTLMapCache.apply, TTLMapCache.Delete, TTLMap.Delete]
    split
    · intro h; cases h
    · exact hc e
  | sweep =>
    simp only [TTLMapCache.apply, TTLMap.Sweep]
    split
    · intro h; cases h
    · rename_i e2 he2
      split
      · intro h; cases h
      · intro h
        rw [← Option.some.inj h]
        exact hc e2 he2

theorem run_expiry_bound (k : String) (bound : Int) :
    ∀ (ops : List (Int × CacheOp)) (c : TTLMapCache),
      (∀ op ∈ ops, op.2.setsKey k = false) →
      (∀ e, c.ttlMap.entries k = some e → e.expiresAt ≤ bound) →
      ∀ e, (c.run ops).ttlMap.entries k = some e → e.expiresAt ≤ bound := by
  intro ops
  induction ops with
  | nil => intro c _ hc; exact hc
  | cons op rest ih =>
    intro c hops hc
    obtain ⟨now, o⟩ := op
    exact ih (c.apply now o) (fun x hx => hops x (List.mem_cons_of_mem _ hx))
      (apply_expiry_bound k bound c now o (hops (now, o) (List.mem_cons_self _ _)) hc)

theorem apply_keeps_entry (k : String) (e : Entry) (c : TTLMapCache) (now : Int)
    (op : CacheOp) (hop : op.writesKey k = false) (hnow : now < e.expiresAt)
    (hc : c.ttlMap.entries k = some e) :
    (c.apply now op).ttlMap.entries k = some e := by
  cases op with
  | get key =>
    simp only [TTLMapCache.apply, TTLMapCache.Get, TTLMap.Load]
    split
    · exact hc
    · rename_i e2 he2
      split
      · rename_i hexp
        split
        · simp only [TTLMap.Delete]
          split
          · rename_i hk
            subst hk
            rw [hc] at he2
            cases he2
            omega
          · exact hc
        · exact hc
      · exact hc
  | set key value =>
    simp only [CacheOp.writesKey, beq_eq_false_iff_ne, ne_eq] at hop
    simp only [TTLMapCache.apply, TTLMapCache.Set, TTLMap.Store]
    rw [if_neg (fun h => hop h.symm)]
    exact hc
  | delete key =>
    simp only [CacheOp.writesKey, beq_eq_false_iff_ne, ne_eq] at hop
    simp only [TTLMapCache.apply, TTLMapCache.Delete, TTLMap.Delete]
    rw [if_neg (fun h => hop h.symm)]
    exact hc
  | sweep =>
    simp only [TTLMapCache.apply, TTLMap.Sweep, hc]
    rw [if_neg (by omega)]

theorem run_keeps_entry (k : String) (e : Entry) :
    ∀ (ops : List (Int × CacheOp)) (c : TTLMapCache),
      (∀ op ∈ ops, op.2.writesKey k = false ∧ op.1 < e.expiresAt) →
      c.ttlMap.entries k = some e →
      (c.run ops).ttlMap.entries k = some e := by
  intro ops
  induction ops with
  | nil => intro c _ hc; exact hc
  | cons op rest ih =>
    intro c hops hc
    obtain ⟨now, o⟩ := op
    have h := hops (now, o) (List.mem_cons_self _ _)
    exact ih (c.apply now o) (fun x hx => hops x (List.mem_cons_of_mem _ hx))
      (apply_keeps_entry k e c now o h.1 h.2 hc)

/-! ## Theorems -/

/-- C1. Cache-aside correctness: with a cache in which a `Get` following a
`Set` of the same key returns the value set, a key that is initially absent,
and a network stub answering `B1` first and `B2` afterwards, two consecutive
`doRequestWithCache` calls with the same endpoint and cache-key parameters
both return `B1` without error, and the network is called exactly once. -/
theorem cache_aside_correct {σ P : Type} (marshal : P → Except String String)
    (encode : Values → String) (cache : Cache σ)
    (hlaw : ∀ s k v, (cache.Get (cache.Set s k v) k).1 = some v)
    (c : Client σ Nat) (hc : c.Cache = some cache) (B1 B2 : String)
    (hnet : c.HTTPClient = stubHTTP B1 B2)
    (endpoint : String) (params params2 : Values) (cacheKeyParams : P) (s0 : σ)
    (hmiss : (cache.Get s0 (generateCacheKey marshal endpoint cacheKeyParams)).1 = none) :
    (c.doRequestWithCache marshal encode endpoint params cacheKeyParams ⟨s0, 0, []⟩).1
        = .ok B1 ∧
    (c.doRequestWithCache marshal encode endpoint params2 cacheKeyParams
        (c.doRequestWithCache marshal encode endpoint params cacheKeyParams ⟨s0, 0, []⟩).2).1
        = .ok B1 ∧
    httpCalls (c.doRequestWithCache marshal encode endpoint params2 cacheKeyParams
        (c.doRequestWithCache marshal encode endpoint params cacheKeyParams ⟨s0, 0, []⟩).2
      ).2.trace = 1 ∧
    (c.doRequestWithCache marshal encode endpoint params2 cacheKeyParams
        (c.doRequestWithCache marshal encode endpoint params cacheKeyParams ⟨s0, 0, []⟩).2
      ).2.net = 1 := by
  have h1 := doRequestWithCache_miss marshal encode c cache hc endpoint params
    cacheKeyParams ⟨s0, 0, []⟩ hmiss
  rw [doRequest_of_ok encode c endpoint params _ B1 (by simp [hnet, stubHTTP])] at h1
  simp only at h1
  rw [h1]
  rw [doRequestWithCache_hit marshal encode c cache hc endpoint params2 cacheKeyParams
    ⟨cache.Set _ _ B1, _, _⟩ B1 (hlaw _ _ _)]
  simp [afterHTTP, httpCalls, hnet, stubHTTP, Event.isHTTP, List.countP_cons, List.countP_nil]

/-- C1 at the in-memory cache and the `B1`-then-`B2` stub, for an `IP` request. -/
theorem cache_aside_correct_witness :
    (∀ s k v, (mapCache.Get (mapCache.Set s k v) k).1 = some v) ∧
    (mapCache.Get [] (generateCacheKey marshalIPRequest "ip" demoIPRequest)).1 = none ∧
    (stubClient.doRequestWithCache marshalIPRequest plainEncode "ip" (ipParams demoIPRequest)
        demoIPRequest ⟨[], 0, []⟩).1 = .ok "B1" ∧
    (stubClient.doRequestWithCache marshalIPRequest plainEncode "ip" (ipParams demoIPRequest)
        demoIPRequest
        (stubClient.doRequestWithCache marshalIPRequest plainEncode "ip"
          (ipParams demoIPRequest) demoIPRequest ⟨[], 0, []⟩).2).1 = .ok "B1" ∧
    httpCalls (stubClient.doRequestWithCache marshalIPRequest plainEncode "ip"
        (ipParams demoIPRequest) demoIPRequest
        (stubClient.doRequestWithCache marshalIPRequest plainEncode "ip"
          (ipParams demoIPRequest) demoIPRequest ⟨[], 0, []⟩).2).2.trace = 1 ∧
    (stubClient.doRequestWithCache marshalIPRequest plainEncode "ip"
        (ipParams demoIPRequest) demoIPRequest
        (stubClient.doRequestWithCache marshalIPRequest plainEncode "ip"
          (ipParams demoIPRequest) demoIPRequest ⟨[], 0, []⟩).2).2.net = 1 :=
  have hlaw : ∀ s k v, (mapCache.Get (mapCache.Set s k v) k).1 = some v := by
    intro s k v
    simp [mapCache]
  ⟨hlaw, rfl,
    cache_aside_correct marshalIPRequest plainEncode mapCache hlaw stubClient rfl "B1" "B2" rfl
      "ip" (ipParams demoIPRequest) (ipParams demoIPRequest) demoIPRequest [] rfl⟩

/-- C2, as stated, fails: with an empty in-memory cache and an upstream that
answers HTTP 200 with the invalid-key body, `Geocode` misses the cache, returns
the upstream error, and leaves the body in the cache under the request key. -/
theorem api_error_not_cached_counterexample :
    (mapCache.Get [] (generateCacheKey marshalGeocodeRequest "geocode/geo"
        demoGeocodeRequest)).1 = none ∧
    stubUnmarshal demoGeocodeResponse invalidKeyBody = .ok demoGeocodeResponse ∧
    demoGeocodeResponse.Status ≠ "1" ∧
    (invalidKeyClient.Geocode marshalGeocodeRequest (stubUnmarshal demoGeocodeResponse)
        plainEncode demoGeocodeRequest ⟨[], (), []⟩).1
      = .error "API错误: INVALID_USER_KEY (代码: 10001)" ∧
    (invalidKeyClient.Geocode marshalGeocodeRequest (stubUnmarshal demoGeocodeResponse)
        plainEncode demoGeocodeRequest ⟨[], (), []⟩).2.cache
      = [(generateCacheKey marshalGeocodeRequest "geocode/geo" demoGeocodeRequest,
          invalidKeyBody)] ∧
    (invalidKeyClient.Geocode marshalGeocodeRequest (stubUnmarshal demoGeocodeResponse)
        plainEncode demoGeocodeRequest ⟨[], (), []⟩).2.cache ≠ [] := by
  have h := geocode_api_error marshalGeocodeRequest (stubUnmarshal demoGeocodeResponse)
    plainEncode invalidKeyClient mapCache rfl demoGeocodeRequest ⟨[], (), []⟩ invalidKeyBody
    demoGeocodeResponse rfl rfl (by simp [stubUnmarshal]) (by decide)
  rw [h]
  refine ⟨rfl, by simp [stubUnmarshal], by decide, ?_, ?_, ?_⟩
  · show Except.error (apiErrorMessage invalidKeyBase) = _
    congr 1
  · simp [afterMiss, mapCache]
  · simp [afterMiss, mapCache]

/-- C2, amended. When a request of `Geocode`, `Regeo` or `IP` misses the cache
and the upstream answers HTTP 200 with a body that decodes to a response whose
status is not `"1"`, the operation returns the error carrying the upstream
info and infocode, and the body is written to the cache under the request key:
the cache state is `Set(key, body)` applied to the state the missed `Get`
left, and the trace grows by the `Get`, the network call and that `Set`. -/
theorem api_error_body_is_cached {σ ν : Type} (encode : Values → String) (c : Client σ ν)
    (cache : Cache σ) (hc : c.Cache = some cache) (w : World σ ν) (body : String) :
    (∀ (marshal : GeocodeRequest → Except String String)
        (unmarshal : String → Except String GeocodeResponse) (req : GeocodeRequest)
        (resp : GeocodeResponse),
      (cache.Get w.cache (generateCacheKey marshal "geocode/geo" req)).1 = none →
      (c.HTTPClient w.net (c.fullURL encode "geocode/geo" (geocodeParams req))).1
        = .response 200 (.ok body) →
      unmarshal body = .ok resp → resp.Status ≠ "1" →
      (c.Geocode marshal unmarshal encode req w).1
        = .error ("API错误: " ++ resp.Info ++ " (代码: " ++ resp.InfoCode ++ ")") ∧
      (c.Geocode marshal unmarshal encode req w).2.cache
        = cache.Set (cache.Get w.cache (generateCacheKey marshal "geocode/geo" req)).2
            (generateCacheKey marshal "geocode/geo" req) body ∧
      (c.Geocode marshal unmarshal encode req w).2.trace
        = w.trace ++
          [Event.cacheGet (generateCacheKey marshal "geocode/geo" req),
           Event.httpGet (c.fullURL encode "geocode/geo" (geocodeParams req)),
           Event.cacheSet (generateCacheKey marshal "geocode/geo" req) body]) ∧
    (∀ (marshal : RegeoRequest → Except String String)
        (unmarshal : String → Except String RegeoResponse) (req : RegeoRequest)
        (resp : RegeoResponse),
      (cache.Get w.cache (generateCacheKey marshal "geocode/regeo" req)).1 = none →
      (c.HTTPClient w.net (c.fullURL encode "geocode/regeo" (regeoParams req))).1
        = .response 200 (.ok body) →
      unmarshal body = .ok resp → resp.Status ≠ "1" →
      (c.Regeo marshal unmarshal encode req w).1
        = .error ("API错误: " ++ resp.Info ++ " (代码: " ++ resp.InfoCode ++ ")") ∧
      (c.Regeo marshal unmarshal encode req w).2.cache
        = cache.Set (cache.Get w.cache (generateCacheKey marshal "geocode/regeo" req)).2
            (generateCacheKey marshal "geocode/regeo" req) body ∧
      (c.Regeo marshal unmarshal encode req w).2.trace
        = w.trace ++
          [Event.cacheGet (generateCacheKey marshal "geocode/regeo" req),
           Event.httpGet (c.fullURL encode "geocode/regeo" (regeoParams req)),
           Event.cacheSet (generateCacheKey marshal "geocode/regeo" req) body]) ∧
    (∀ (marshal : IPRequest → Except String String)
        (unmarshal : String → Except String IPResponse) (req : IPRequest)
        (resp : IPResponse),
      (cache.Get w.cache (generateCacheKey marshal "ip" req)).1 = none →
      (c.HTTPClient w.net (c.fullURL encode "ip" (ipParams req))).1
        = .response 200 (.ok body) →
      unmarshal body = .ok resp → resp.Status ≠ "1" →
      (c.IP marshal unmarshal encode req w).1
        = .error ("API错误: " ++ resp.Info ++ " (代码: " ++ resp.InfoCode ++ ")") ∧
      (c.IP marshal unmarshal encode req w).2.cache
        = cache.Set (cache.Get w.cache (generateCacheKey marshal "ip" req)).2
            (generateCacheKey marshal "ip" req) body ∧
      (c.IP marshal unmarshal encode req w).2.trace
        = w.trace ++
          [Event.cacheGet (generateCacheKey marshal "ip" req),
           Event.httpGet (c.fullURL encode "ip" (ipParams req)),
           Event.cacheSet (generateCacheKey marshal "ip" req) body]) := by
  refine ⟨?_, ?_, ?_⟩
  · intro marshal unmarshal req resp hmiss hhttp hdec hst
    rw [geocode_api_error marshal unmarshal encode c cache hc req w body resp hmiss hhttp
      hdec hst]
    exact ⟨rfl, rfl, rfl⟩
  · intro marshal unmarshal req resp hmiss hhttp hdec hst
    rw [regeo_api_error marshal unmarshal encode c cache hc req w body resp hmiss hhttp
      hdec hst]
    exact ⟨rfl, rfl, rfl⟩
  · intro marshal unmarshal req resp hmiss hhttp hdec hst
    rw [ip_api_error marshal unmarshal encode c cache hc req w body resp hmiss hhttp
      hdec hst]
    exact ⟨rfl, rfl, rfl⟩

/-- C2, amended, at the invalid-key upstream, for one request of each operation. -/
theorem api_error_body_is_cached_witness :
    ((mapCache.Get [] (generateCacheKey marshalGeocodeRequest "geocode/geo"
        demoGeocodeRequest)).1 = none ∧
      stubUnmarshal demoGeocodeResponse invalidKeyBody = .ok demoGeocodeResponse ∧
      demoGeocodeResponse.Status ≠ "1" ∧
      (invalidKeyClient.Geocode marshalGeocodeRequest (stubUnmarshal demoGeocodeResponse)
          plainEncode demoGeocodeRequest ⟨[], (), []⟩).1
        = .error ("API错误: " ++ demoGeocodeResponse.Info ++ " (代码: "
            ++ demoGeocodeResponse.InfoCode ++ ")") ∧
      (invalidKeyClient.Geocode marshalGeocodeRequest (stubUnmarshal demoGeocodeResponse)
          plainEncode demoGeocodeRequest ⟨[], (), []⟩).2.cache
        = mapCache.Set (mapCache.Get [] (generateCacheKey marshalGeocodeRequest "geocode/geo"
              demoGeocodeRequest)).2
            (generateCacheKey marshalGeocodeRequest "geocode/geo" demoGeocodeRequest)
            invalidKeyBody) ∧
    ((mapCache.Get [] (generateCacheKey marshalRegeoRequest "geocode/regeo"
        demoRegeoRequest)).1 = none ∧
      stubUnmarshal demoRegeoResponse invalidKeyBody = .ok demoRegeoResponse ∧
      demoRegeoResponse.Status ≠ "1" ∧
      (invalidKeyClient.Regeo marshalRegeoRequest (stubUnmarshal demoRegeoResponse)
          plainEncode demoRegeoRequest ⟨[], (), []⟩).1
        = .error ("API错误: " ++ demoRegeoResponse.Info ++ " (代码: "
            ++ demoRegeoResponse.InfoCode ++ ")") ∧
      (invalidKeyClient.Regeo marshalRegeoRequest (stubUnmarshal demoRegeoResponse)
          plainEncode demoRegeoRequest ⟨[], (), []⟩).2.cache
        = mapCache.Set (mapCache.Get [] (generateCacheKey marshalRegeoRequest "geocode/regeo"
              demoRegeoRequest)).2
            (generateCacheKey marshalRegeoRequest "geocode/regeo" demoRegeoRequest)
            invalidKeyBody) ∧
    ((mapCache.Get [] (generateCacheKey marshalIPRequest "ip" demoIPRequest)).1 = none ∧
      stubUnmarshal demoIPResponse invalidKeyBody = .ok demoIPResponse ∧
      demoIPResponse.Status ≠ "1" ∧
      (invalidKeyClient.IP marshalIPRequest (stubUnmarshal demoIPResponse)
          plainEncode demoIPRequest ⟨[], (), []⟩).1
        = .error ("API错误: " ++ demoIPResponse.Info ++ " (代码: "
            ++ demoIPResponse.InfoCode ++ ")") ∧
      (invalidKeyClient.IP marshalIPRequest (stubUnmarshal demoIPResponse)
          plainEncode demoIPRequest ⟨[], (), []⟩).2.cache
        = mapCache.Set (mapCache.Get [] (generateCacheKey marshalIPRequest "ip"
              demoIPRequest)).2
            (generateCacheKey marshalIPRequest "ip" demoIPRequest) invalidKeyBody) := by
  have h := api_error_body_is_cached plainEncode invalidKeyClient mapCache rfl ⟨[], (), []⟩
    invalidKeyBody
  have hG := h.1 marshalGeocodeRequest (stubUnmarshal demoGeocodeResponse) demoGeocodeRequest
    demoGeocodeResponse rfl rfl (by simp [stubUnmarshal]) (by decide)
  have hR := h.2.1 marshalRegeoRequest (stubUnmarshal demoRegeoResponse) demoRegeoRequest
    demoRegeoResponse rfl rfl (by simp [stubUnmarshal]) (by decide)
  have hI := h.2.2 marshalIPRequest (stubUnmarshal demoIPResponse) demoIPRequest
    demoIPResponse rfl rfl (by simp [stubUnmarshal]) (by decide)
  exact ⟨⟨rfl, by simp [stubUnmarshal], by decide, hG.1, hG.2.1⟩,
    ⟨rfl, by simp [stubUnmarshal], by decide, hR.1, hR.2.1⟩,
    ⟨rfl, by simp [stubUnmarshal], by decide, hI.1, hI.2.1⟩⟩

/-- C3. A failed network call is never cached: with a cache configured and a
`Get` that misses, whenever the transport fails, the body cannot be read, or
the status is not 200, `doRequest` fails and `doRequestWithCache` returns
exactly that error; the only cache operation performed is the `Get`, no `Set`
is performed, the cache state is the one the `Get` left, hence the initial one
whenever `Get` does not alter the state. -/
theorem failed_call_not_cached {σ ν P : Type} (marshal : P → Except String String)
    (encode : Values → String) (c : Client σ ν) (cache : Cache σ) (hc : c.Cache = some cache)
    (endpoint : String) (params : Values) (cacheKeyParams : P) (w : World σ ν)
    (hmiss : (cache.Get w.cache (generateCacheKey marshal endpoint cacheKeyParams)).1 = none)
    (hfail : ∀ b, (c.HTTPClient w.net (c.fullURL encode endpoint params)).1
      ≠ .response 200 (.ok b)) :
    ∃ err,
      (c.doRequest encode endpoint params
        { w with
          cache := (cache.Get w.cache (generateCacheKey marshal endpoint cacheKeyParams)).2,
          trace := w.trace ++
            [Event.cacheGet (generateCacheKey marshal endpoint cacheKeyParams)] }).1
        = .error err ∧
      (c.doRequestWithCache marshal encode endpoint params cacheKeyParams w).1 = .error err ∧
      (c.doRequestWithCache marshal encode endpoint params cacheKeyParams w).2.trace
        = w.trace ++ [Event.cacheGet (generateCacheKey marshal endpoint cacheKeyParams),
            Event.httpGet (c.fullURL encode endpoint params)] ∧
      cacheSets (c.doRequestWithCache marshal encode endpoint params cacheKeyParams w).2.trace
        = cacheSets w.trace ∧
      (c.doRequestWithCache marshal encode endpoint params cacheKeyParams w).2.cache
        = (cache.Get w.cache (generateCacheKey marshal endpoint cacheKeyParams)).2 ∧
      ((cache.Get w.cache (generateCacheKey marshal endpoint cacheKeyParams)).2 = w.cache →
        (c.doRequestWithCache marshal encode endpoint params cacheKeyParams w).2.cache
          = w.cache) := by
  rw [doRequestWithCache_miss marshal encode c cache hc endpoint params cacheKeyParams w hmiss]
  generalize hw1 : ({ w with
      cache := (cache.Get w.cache (generateCacheKey marshal endpoint cacheKeyParams)).2,
      trace := w.trace ++
        [Event.cacheGet (generateCacheKey marshal endpoint cacheKeyParams)] } : World σ ν) = w1
  have hnet : w1.net = w.net := by rw [← hw1]
  have hsnd := doRequest_snd encode c endpoint params w1
  cases hres : c.doRequest encode endpoint params w1 with
  | mk r w2 =>
    rw [hres] at hsnd
    simp only at hsnd
    cases r with
    | error err =>
      refine ⟨err, rfl, rfl, ?_, ?_, ?_, ?_⟩
      · simp only [hsnd, afterHTTP, ← hw1, List.append_assoc, List.singleton_append]
      · simp only [hsnd, afterHTTP, ← hw1, cacheSets, List.countP_append, List.countP_cons,
          List.countP_nil, Event.isSet]
        simp
      · simp only [hsnd, afterHTTP, ← hw1]
      · intro h
        simp only [hsnd, afterHTTP, ← hw1, h]
    | ok b =>
      exfalso
      apply hfail b
      unfold Client.doRequest at hres
      rw [hnet] at hres
      unfold Client.fullURL
      revert hres
      dsimp only
      split
      · intro h; simp at h
      · intro h; simp at h
      · rename_i code body hr
        split
        · intro h; simp at h
        · rename_i hcode
          intro h
          simp only [Prod.mk.injEq, Except.ok.injEq] at h
          rw [hr]
          simp only [ne_eq, Decidable.not_not] at hcode
          rw [hcode, h.1]

/-- C3 at an upstream answering HTTP 500. -/
theorem failed_call_not_cached_witness :
    (mapCache.Get [] (generateCacheKey marshalIPRequest "ip" demoIPRequest)).1 = none ∧
    (∀ b, (failingClient.HTTPClient ()
        (failingClient.fullURL plainEncode "ip" (ipParams demoIPRequest))).1
      ≠ .response 200 (.ok b)) ∧
    ∃ err,
      (failingClient.doRequest plainEncode "ip" (ipParams demoIPRequest)
        { (⟨[], (), []⟩ : World (List (String × String)) Unit) with
          cache := (mapCache.Get [] (generateCacheKey marshalIPRequest "ip" demoIPRequest)).2,
          trace := [] ++ [Event.cacheGet (generateCacheKey marshalIPRequest "ip"
              demoIPRequest)] }).1
        = .error err ∧
      (failingClient.doRequestWithCache marshalIPRequest plainEncode "ip"
          (ipParams demoIPRequest) demoIPRequest ⟨[], (), []⟩).1 = .error err ∧
      (failingClient.doRequestWithCache marshalIPRequest plainEncode "ip"
          (ipParams demoIPRequest) demoIPRequest ⟨[], (), []⟩).2.trace
        = [] ++ [Event.cacheGet (generateCacheKey marshalIPRequest "ip" demoIPRequest),
            Event.httpGet (failingClient.fullURL plainEncode "ip" (ipParams demoIPRequest))] ∧
      cacheSets (failingClient.doRequestWithCache marshalIPRequest plainEncode "ip"
          (ipParams demoIPRequest) demoIPRequest ⟨[], (), []⟩).2.trace = cacheSets [] ∧
      (failingClient.doRequestWithCache marshalIPRequest plainEncode "ip"
          (ipParams demoIPRequest) demoIPRequest ⟨[], (), []⟩).2.cache
        = (mapCache.Get [] (generateCacheKey marshalIPRequest "ip" demoIPRequest)).2 ∧
      ((mapCache.Get [] (generateCacheKey marshalIPRequest "ip" demoIPRequest)).2 = [] →
        (failingClient.doRequestWithCache marshalIPRequest plainEncode "ip"
          (ipParams demoIPRequest) demoIPRequest ⟨[], (), []⟩).2.cache = []) :=
  have hfail : ∀ b, (failingClient.HTTPClient ()
      (failingClient.fullURL plainEncode "ip" (ipParams demoIPRequest))).1
      ≠ .response 200 (.ok b) := by
    intro b h
    simp [failingClient, demoClient, constHTTP] at h
  ⟨rfl, hfail,
    failed_call_not_cached marshalIPRequest plainEncode failingClient mapCache rfl "ip"
      (ipParams demoIPRequest) demoIPRequest ⟨[], (), []⟩ rfl hfail⟩

/-- C4, as stated, fails: a channel and a function are two different values
that `json.Marshal` rejects, and `generateCacheKey` returns for both, under the
same prefix, the same key, the one built from the digest of no data. -/
theorem encoding_failure_counterexample :
    jsonMarshal GoValue.chan = .error "json: unsupported type: chan int" ∧
    jsonMarshal GoValue.func = .error "json: unsupported type: func()" ∧
    GoValue.chan ≠ GoValue.func ∧
    generateCacheKey jsonMarshal "geocode/geo" GoValue.chan
      = "geocode/geo:d41d8cd98f00b204e9800998ecf8427e" ∧
    generateCacheKey jsonMarshal "geocode/geo" GoValue.func
      = "geocode/geo:d41d8cd98f00b204e9800998ecf8427e" ∧
    generateCacheKey jsonMarshal "geocode/geo" GoValue.chan
      = generateCacheKey jsonMarshal "geocode/geo" GoValue.func := by
  have h1 := generateCacheKey_of_error jsonMarshal "geocode/geo" GoValue.chan _ rfl
  have h2 := generateCacheKey_of_error jsonMarshal "geocode/geo" GoValue.func _ rfl
  refine ⟨rfl, rfl, by decide, ?_, ?_, ?_⟩
  · rw [h1]; rfl
  · rw [h2]; rfl
  · rw [h1, h2]

/-- C4, amended. `generateCacheKey` has no error result: when the JSON
serialization of the parameters fails, the error is dropped and the key is the
prefix followed by `":"` and the hexadecimal MD5 digest of the empty input, so
every other non-serializable value gets the same key under the same prefix,
and `doRequestWithCache` treats the two values alike. -/
theorem encoding_failure_constant_key {P : Type} (marshal : P → Except String String)
    (pfx : String) (p : P) (e : String) (h : marshal p = .error e) :
    generateCacheKey marshal pfx p = pfx ++ ":d41d8cd98f00b204e9800998ecf8427e" ∧
    ∀ (p2 : P) (e2 : String), marshal p2 = .error e2 →
      generateCacheKey marshal pfx p2 = generateCacheKey marshal pfx p ∧
      ∀ {σ ν : Type} (encode : Values → String) (c : Client σ ν) (params : Values)
        (w : World σ ν),
        c.doRequestWithCache marshal encode pfx params p2 w
          = c.doRequestWithCache marshal encode pfx params p w := by
  have hp := generateCacheKey_of_error marshal pfx p e h
  refine ⟨hp, ?_⟩
  intro p2 e2 h2
  have hp2 := generateCacheKey_of_error marshal pfx p2 e2 h2
  refine ⟨by rw [hp, hp2], ?_⟩
  intro σ ν encode c params w
  unfold Client.doRequestWithCache
  rw [hp, hp2]

/-- C4, amended, at a channel and a function under the prefix `ip`. -/
theorem encoding_failure_constant_key_witness :
    jsonMarshal GoValue.chan = .error "json: unsupported type: chan int" ∧
    generateCacheKey jsonMarshal "ip" GoValue.chan
      = "ip" ++ ":d41d8cd98f00b204e9800998ecf8427e" ∧
    generateCacheKey jsonMarshal "ip" GoValue.func
      = generateCacheKey jsonMarshal "ip" GoValue.chan :=
  ⟨rfl,
    (encoding_failure_constant_key jsonMarshal "ip" GoValue.chan _ rfl).1,
    ((encoding_failure_constant_key jsonMarshal "ip" GoValue.chan _ rfl).2
      GoValue.func _ rfl).1⟩

/-- C5. Tolerant decoding: each getter of `StreetNumber` returns `decode` of
its own field, whatever the other four fields hold; `decode` of an array looks
at the first element only; and the literal cases of the specification hold. -/
theorem tolerant_decoding :
    (∀ s : StreetNumber,
      s.GetStreet = decode s.Street ∧ s.GetNumber = decode s.Number ∧
      s.GetLocation = decode s.Location ∧ s.GetDirection = decode s.Direction ∧
      s.GetDistance = decode s.Distance) ∧
    (∀ (a b c d e b2 c2 d2 e2 : JSON),
      (StreetNumber.mk a b c d e).GetStreet = (StreetNumber.mk a b2 c2 d2 e2).GetStreet ∧
      (StreetNumber.mk b a c d e).GetNumber = (StreetNumber.mk b2 a c2 d2 e2).GetNumber ∧
      (StreetNumber.mk b c a d e).GetLocation = (StreetNumber.mk b2 c2 a d2 e2).GetLocation ∧
      (StreetNumber.mk b c d a e).GetDirection
        = (StreetNumber.mk b2 c2 d2 a e2).GetDirection ∧
      (StreetNumber.mk b c d e a).GetDistance
        = (StreetNumber.mk b2 c2 d2 e2 a).GetDistance) ∧
    (∀ (x : JSON) (rest rest2 : List JSON),
      decode (.array (x :: rest)) = decode (.array (x :: rest2))) ∧
    decode (.string "望江西路") = "望江西路" ∧
    decode (.array [.string "望江西路"]) = "望江西路" ∧
    decode (.array []) = "" ∧
    decode (.number 42) = "" := by
  have key : ∀ x : JSON,
      (match x with
        | .string v => v
        | .array v =>
          if v.length > 0 then
            match v.head? with
            | some (.string str) => str
            | _ => ""
          else ""
        | _ => "") = decode x := by
    intro x
    cases x with
    | array v =>
      cases v with
      | nil => rfl
      | cons a rest => cases a <;> simp [decode]
    | _ => rfl
  have hall : ∀ s : StreetNumber,
      s.GetStreet = decode s.Street ∧ s.GetNumber = decode s.Number ∧
      s.GetLocation = decode s.Location ∧ s.GetDirection = decode s.Direction ∧
      s.GetDistance = decode s.Distance :=
    fun s => ⟨key s.Street, key s.Number, key s.Location, key s.Direction, key s.Distance⟩
  refine ⟨hall, ?_, ?_, rfl, rfl, rfl, rfl⟩
  · intro a b c d e b2 c2 d2 e2
    exact ⟨rfl, rfl, rfl, rfl, rfl⟩
  · intro x rest rest2
    cases x <;> rfl

/-- C6. Namespace isolation: two different prefixes never yield the same key,
whatever the two parameter values are, because what follows the prefix is
always `":"` and 32 hexadecimal characters. -/
theorem namespace_isolation {P : Type} (marshal : P → Except String String)
    (n1 n2 : String) (p1 p2 : P) (hne : n1 ≠ n2) :
    generateCacheKey marshal n1 p1 ≠ generateCacheKey marshal n2 p2 ∧
    generateCacheKey marshal n1 p1 ≠ generateCacheKey marshal n2 p1 ∧
    (∃ h : List Char, h.length = 32 ∧
      (generateCacheKey marshal n1 p1).data = n1.data ++ ':' :: h) := by
  have key : ∀ q1 q2 : P, generateCacheKey marshal n1 q1 ≠ generateCacheKey marshal n2 q2 := by
    intro q1 q2 heq
    obtain ⟨h1, hl1, hd1⟩ := generateCacheKey_data marshal n1 q1
    obtain ⟨h2, hl2, hd2⟩ := generateCacheKey_data marshal n2 q2
    rw [heq, hd2] at hd1
    have hlen : (':' :: h2).length = (':' :: h1).length := by simp [hl1, hl2]
    have := (List.append_inj' hd1 hlen).1
    exact hne (String.ext this.symm)
  exact ⟨key p1 p2, key p1 p1, generateCacheKey_data marshal n1 p1⟩

/-- C6 at the prefixes of `Geocode` and `Regeo`. -/
theorem namespace_isolation_witness :
    ("geocode/geo" : String) ≠ "geocode/regeo" ∧
    generateCacheKey jsonMarshal "geocode/geo" (GoValue.int 1)
      ≠ generateCacheKey jsonMarshal "geocode/regeo" (GoValue.int 2) ∧
    generateCacheKey jsonMarshal "geocode/geo" (GoValue.int 1)
      ≠ generateCacheKey jsonMarshal "geocode/regeo" (GoValue.int 1) :=
  ⟨by decide,
    (namespace_isolation jsonMarshal "geocode/geo" "geocode/regeo" (GoValue.int 1)
      (GoValue.int 2) (by decide)).1,
    (namespace_isolation jsonMarshal "geocode/geo" "geocode/regeo" (GoValue.int 1)
      (GoValue.int 2) (by decide)).2.1⟩

/-- C7. A cache hit returns the cached bytes verbatim: when `Get` on the
request key finds `v`, `doRequestWithCache` returns `v` without error, the only
effect is that `Get` (no network call, no `Set`, the network state is
untouched), and the outcome is the same for any other query parameters. -/
theorem cache_hit_verbatim {σ ν P : Type} (marshal : P → Except String String)
    (encode : Values → String) (c : Client σ ν) (cache : Cache σ) (hc : c.Cache = some cache)
    (endpoint : String) (params : Values) (cacheKeyParams : P) (w : World σ ν) (v : String)
    (hhit : (cache.Get w.cache (generateCacheKey marshal endpoint cacheKeyParams)).1
      = some v) :
    (c.doRequestWithCache marshal encode endpoint params cacheKeyParams w).1 = .ok v ∧
    (c.doRequestWithCache marshal encode endpoint params cacheKeyParams w).2.trace
      = w.trace ++ [Event.cacheGet (generateCacheKey marshal endpoint cacheKeyParams)] ∧
    httpCalls (c.doRequestWithCache marshal encode endpoint params cacheKeyParams w).2.trace
      = httpCalls w.trace ∧
    cacheSets (c.doRequestWithCache marshal encode endpoint params cacheKeyParams w).2.trace
      = cacheSets w.trace ∧
    (c.doRequestWithCache marshal encode endpoint params cacheKeyParams w).2.net = w.net ∧
    (c.doRequestWithCache marshal encode endpoint params cacheKeyParams w).2.cache
      = (cache.Get w.cache (generateCacheKey marshal endpoint cacheKeyParams)).2 ∧
    ∀ params2 : Values,
      c.doRequestWithCache marshal encode endpoint params2 cacheKeyParams w
        = c.doRequestWithCache marshal encode endpoint params cacheKeyParams w := by
  have h := fun q => doRequestWithCache_hit marshal encode c cache hc endpoint q
    cacheKeyParams w v hhit
  refine ⟨by rw [h], by rw [h], ?_, ?_, by rw [h], by rw [h], fun q => by rw [h, h]⟩
  · rw [h]
    simp [httpCalls, List.countP_append, Event.isHTTP]
  · rw [h]
    simp [cacheSets, List.countP_append, Event.isSet]

/-- C7 at a cache holding the empty byte string under the request key. -/
theorem cache_hit_verbatim_witness :
    (mapCache.Get [(generateCacheKey marshalIPRequest "ip" demoIPRequest, "")]
        (generateCacheKey marshalIPRequest "ip" demoIPRequest)).1 = some "" ∧
    (stubClient.doRequestWithCache marshalIPRequest plainEncode "ip" (ipParams demoIPRequest)
        demoIPRequest
        ⟨[(generateCacheKey marshalIPRequest "ip" demoIPRequest, "")], 0, []⟩).1 = .ok "" ∧
    httpCalls (stubClient.doRequestWithCache marshalIPRequest plainEncode "ip"
        (ipParams demoIPRequest) demoIPRequest
        ⟨[(generateCacheKey marshalIPRequest "ip" demoIPRequest, "")], 0, []⟩).2.trace
      = httpCalls [] ∧
    cacheSets (stubClient.doRequestWithCache marshalIPRequest plainEncode "ip"
        (ipParams demoIPRequest) demoIPRequest
        ⟨[(generateCacheKey marshalIPRequest "ip" demoIPRequest, "")], 0, []⟩).2.trace
      = cacheSets [] :=
  have hhit : (mapCache.Get [(generateCacheKey marshalIPRequest "ip" demoIPRequest, "")]
      (generateCacheKey marshalIPRequest "ip" demoIPRequest)).1 = some "" := by
    simp [mapCache]
  have h := cache_hit_verbatim marshalIPRequest plainEncode stubClient mapCache rfl "ip"
    (ipParams demoIPRequest) demoIPRequest
    ⟨[(generateCacheKey marshalIPRequest "ip" demoIPRequest, "")], 0, []⟩ "" hhit
  ⟨hhit, h.1, h.2.2.1, h.2.2.2.1⟩

/-- C8. Cache-disabled passthrough: with a nil `Cache`, `doRequestWithCache`
is `doRequest` on the same endpoint and query parameters, whatever the
cache-key parameters are; and when the network answers `B1` to the first call
and `B2` to the next one, two identical calls each reach the network and return
`B1` then `B2`. -/
theorem cache_disabled_passthrough {σ ν P : Type} (marshal : P → Except String String)
    (encode : Values → String) (c : Client σ ν) (hc : c.Cache = none)
    (endpoint : String) (params : Values) (cacheKeyParams : P) (w : World σ ν) :
    c.doRequestWithCache marshal encode endpoint params cacheKeyParams w
      = c.doRequest encode endpoint params w ∧
    (∀ {Q : Type} (marshal2 : Q → Except String String) (q : Q),
      c.doRequestWithCache marshal2 encode endpoint params q w
        = c.doRequestWithCache marshal encode endpoint params cacheKeyParams w) ∧
    (∀ B1 B2 : String,
      (c.HTTPClient w.net (c.fullURL encode endpoint params)).1 = .response 200 (.ok B1) →
      (c.HTTPClient (c.HTTPClient w.net (c.fullURL encode endpoint params)).2
        (c.fullURL encode endpoint params)).1 = .response 200 (.ok B2) →
      (c.doRequestWithCache marshal encode endpoint params cacheKeyParams w).1 = .ok B1 ∧
      (c.doRequestWithCache marshal encode endpoint params cacheKeyParams
        (c.doRequestWithCache marshal encode endpoint params cacheKeyParams w).2).1
        = .ok B2 ∧
      httpCalls (c.doRequestWithCache marshal encode endpoint params cacheKeyParams
        (c.doRequestWithCache marshal encode endpoint params cacheKeyParams w).2).2.trace
        = httpCalls w.trace + 2 ∧
      (c.doRequestWithCache marshal encode endpoint params cacheKeyParams
        (c.doRequestWithCache marshal encode endpoint params cacheKeyParams w).2).2.cache
        = w.cache) := by
  have hpass : ∀ {Q : Type} (m : Q → Except String String) (q : Q) (w2 : World σ ν),
      c.doRequestWithCache m encode endpoint params q w2
        = c.doRequest encode endpoint params w2 := by
    intro Q m q w2
    unfold Client.doRequestWithCache
    simp only [hc]
  refine ⟨hpass marshal cacheKeyParams w, ?_, ?_⟩
  · intro Q m q
    rw [hpass m q w, hpass marshal cacheKeyParams w]
  · intro B1 B2 h1 h2
    rw [hpass marshal cacheKeyParams w, doRequest_of_ok encode c endpoint params w B1 h1,
      hpass marshal cacheKeyParams _,
      doRequest_of_ok encode c endpoint params (afterHTTP encode c endpoint params w) B2 h2]
    refine ⟨rfl, rfl, ?_, rfl⟩
    simp [afterHTTP, httpCalls, List.countP_append, Event.isHTTP]

/-- C8 at a client without cache behind the `B1`-then-`B2` stub. -/
theorem cache_disabled_passthrough_witness :
    plainClient.Cache = none ∧
    plainClient.doRequestWithCache marshalIPRequest plainEncode "ip" (ipParams demoIPRequest)
        demoIPRequest ⟨(), 0, []⟩
      = plainClient.doRequest plainEncode "ip" (ipParams demoIPRequest) ⟨(), 0, []⟩ ∧
    (plainClient.doRequestWithCache marshalIPRequest plainEncode "ip"
        (ipParams demoIPRequest) demoIPRequest ⟨(), 0, []⟩).1 = .ok "B1" ∧
    (plainClient.doRequestWithCache marshalIPRequest plainEncode "ip"
        (ipParams demoIPRequest) demoIPRequest
        (plainClient.doRequestWithCache marshalIPRequest plainEncode "ip"
          (ipParams demoIPRequest) demoIPRequest ⟨(), 0, []⟩).2).1 = .ok "B2" ∧
    httpCalls (plainClient.doRequestWithCache marshalIPRequest plainEncode "ip"
        (ipParams demoIPRequest) demoIPRequest
        (plainClient.doRequestWithCache marshalIPRequest plainEncode "ip"
          (ipParams demoIPRequest) demoIPRequest ⟨(), 0, []⟩).2).2.trace
      = httpCalls [] + 2 :=
  have h := cache_disabled_passthrough marshalIPRequest plainEncode plainClient rfl "ip"
    (ipParams demoIPRequest) demoIPRequest ⟨(), 0, []⟩
  have h2 := h.2.2 "B1" "B2" rfl rfl
  ⟨rfl, h.1, h2.1, h2.2.1, h2.2.2.1⟩

/-- C9. TTL expiry of `TTLMapCache` with store-wide ttl `d`: a `Set` of `k` to
`v` at instant `t` stamps the entry with the expiry `t + d`; after it, a `Get` of `k` at any instant `t2 ≥ t + d` finds
nothing, whatever steps other than a `Set` on `k` came in between; and a `Get`
of `k` at any instant `t2 < t + d` finds `v`, whatever steps other than a `Set`
or a `Delete` on `k` came in between no later than `t2`. -/
theorem ttl_expiry (c : TTLMapCache) (d : Int) (hd : c.ttl = d) (k v : String) (t : Int) :
    (c.Set t k v).ttlMap.entries k = some ⟨v, t + d⟩ ∧
    (∀ (ops : List (Int × CacheOp)) (t2 : Int),
      (∀ op ∈ ops, op.2.setsKey k = false) → t2 ≥ t + d →
      (((c.Set t k v).run ops).Get t2 k).1 = none) ∧
    (∀ (ops : List (Int × CacheOp)) (t2 : Int),
      (∀ op ∈ ops, op.2.writesKey k = false ∧ op.1 ≤ t2) → t2 < t + d →
      (((c.Set t k v).run ops).Get t2 k).1 = some v) := by
  have hset : (c.Set t k v).ttlMap.entries k = some ⟨v, t + d⟩ := by
    simp [TTLMapCache.Set, TTLMap.Store, hd]
  refine ⟨hset, ?_, ?_⟩
  · intro ops t2 hops ht2
    have hb := run_expiry_bound k (t + d) ops (c.Set t k v) hops
      (by intro e he; rw [hset] at he; cases he; exact le_refl _)
    simp only [TTLMapCache.Get, TTLMap.Load]
    split
    · rfl
    · rename_i e he
      have := hb e he
      rw [if_pos (by omega)]
  · intro ops t2 hops ht2
    have hk := run_keeps_entry k ⟨v, t + d⟩ ops (c.Set t k v)
      (fun op hop => ⟨(hops op hop).1, by have := (hops op hop).2; show op.1 < t + d; omega⟩) hset
    simp only [TTLMapCache.Get, TTLMap.Load, hk]
    rw [if_neg (by omega)]

/-- C9 at a ttl of 10ms: a read after 50ms finds nothing, a read after 5ms finds
the value. -/
theorem ttl_expiry_witness :
    (NewTTLMapCache true 10000000).ttl = 10000000 ∧
    (∀ op ∈ [((20000000 : Int), CacheOp.get "k"), (30000000, CacheOp.set "other" "x"),
        (40000000, CacheOp.sweep)],
      op.2.setsKey "k" = false) ∧
    (50000000 : Int) ≥ 0 + 10000000 ∧
    ((((NewTTLMapCache true 10000000).Set 0 "k" "v").run
        [(20000000, CacheOp.get "k"), (30000000, CacheOp.set "other" "x"),
          (40000000, CacheOp.sweep)]).Get
        50000000 "k").1 = none ∧
    (∀ op ∈ [((2000000 : Int), CacheOp.get "k"), (3000000, CacheOp.set "other" "x"),
        (4000000, CacheOp.sweep)],
      op.2.writesKey "k" = false ∧ op.1 ≤ 5000000) ∧
    (5000000 : Int) < 0 + 10000000 ∧
    ((((NewTTLMapCache true 10000000).Set 0 "k" "v").run
        [(2000000, CacheOp.get "k"), (3000000, CacheOp.set "other" "x"),
          (4000000, CacheOp.sweep)]).Get
        5000000 "k").1 = some "v" :=
  have h := ttl_expiry (NewTTLMapCache true 10000000) 10000000 rfl "k" "v" 0
  have h1 : ∀ op ∈ [((20000000 : Int), CacheOp.get "k"), (30000000, CacheOp.set "other" "x"),
        (40000000, CacheOp.sweep)],
      op.2.setsKey "k" = false := by
    decide
  have h2 : ∀ op ∈ [((2000000 : Int), CacheOp.get "k"), (3000000, CacheOp.set "other" "x"),
        (4000000, CacheOp.sweep)],
      op.2.writesKey "k" = false ∧ op.1 ≤ 5000000 := by
    decide
  ⟨rfl, h1, by decide, h.2.1 _ 50000000 h1 (by decide), h2, by decide,
    h.2.2 _ 5000000 h2 (by decide)⟩

/-- C10. HTTP status handling of `doRequest`: for a response with status code
`s` whose body `b` was read in full, the result is `(b, nil)` exactly when
`s = 200`; for any other code the result is an error, without body, whose
message is made of the decimal status code and the raw body. -/
theorem doRequest_status {σ ν : Type} (encode : Values → String) (c : Client σ ν)
    (endpoint : String) (params : Values) (w : World σ ν) (s : Int) (b : String)
    (hresp : (c.HTTPClient w.net (c.fullURL encode endpoint params)).1
      = .response s (.ok b)) :
    ((c.doRequest encode endpoint params w).1 = .ok b ↔ s = 200) ∧
    ((∃ b2, (c.doRequest encode endpoint params w).1 = .ok b2) ↔ s = 200) ∧
    (s ≠ 200 →
      (c.doRequest encode endpoint params w).1
        = .error ("HTTP状态码错误: " ++ toString s ++ ", 响应: " ++ b) ∧
      ∃ pre mid : String,
        (c.doRequest encode endpoint params w).1 = .error (pre ++ toString s ++ mid ++ b)) := by
  unfold Client.fullURL at hresp
  have hres : (c.doRequest encode endpoint params w).1
      = if s ≠ 200 then .error ("HTTP状态码错误: " ++ toString s ++ ", 响应: " ++ b)
        else .ok b := by
    unfold Client.doRequest
    simp only [hresp]
    split <;> rfl
  rw [hres]
  by_cases hs : s = 200
  · simp [hs]
  · simp only [ne_eq, hs, not_false_eq_true, if_true, iff_false, not_exists, true_and,
      forall_true_left]
    refine ⟨by simp, by simp, ⟨"HTTP状态码错误: ", ", 响应: ", rfl⟩⟩

/-- C10 at an upstream answering HTTP 500 with the body `oops`. -/
theorem doRequest_status_witness :
    (failingClient.HTTPClient ()
        (failingClient.fullURL plainEncode "ip" (ipParams demoIPRequest))).1
      = .response 500 (.ok "oops") ∧
    (500 : Int) ≠ 200 ∧
    (failingClient.doRequest plainEncode "ip" (ipParams demoIPRequest) ⟨[], (), []⟩).1
      = .error ("HTTP状态码错误: " ++ toString (500 : Int) ++ ", 响应: " ++ "oops") :=
  ⟨rfl, by decide,
    ((doRequest_status plainEncode failingClient "ip" (ipParams demoIPRequest) ⟨[], (), []⟩
      500 "oops" rfl).2.2 (by decide)).1⟩

/-- C11. Logical success criterion of `BaseResponse`: `IsSuccess` holds
exactly when `Status` is `"1"`; `GetError` is nil exactly when `IsSuccess`
holds; and for any other status `GetError` is a non-nil error whose message is
built around `Info` and `InfoCode`. -/
theorem base_response_success (r : BaseResponse) :
    (r.IsSuccess = true ↔ r.Status = "1") ∧
    (r.GetError = none ↔ r.IsSuccess = true) ∧
    (r.Status ≠ "1" →
      r.GetError ≠ none ∧
      r.GetError = some ("API错误: " ++ r.Info ++ " (代码: " ++ r.InfoCode ++ ")") ∧
      ∃ pre mid post : String, r.GetError = some (pre ++ r.Info ++ mid ++ r.InfoCode ++ post)) := by
  have hs : r.IsSuccess = true ↔ r.Status = "1" := by
    simp [BaseResponse.IsSuccess]
  refine ⟨hs, ?_, ?_⟩
  · unfold BaseResponse.GetError
    by_cases h : r.IsSuccess = true
    · simp [h]
    · simp [h]
  · intro h
    have hf : ¬ r.IsSuccess = true := fun hh => h (hs.1 hh)
    have hg : r.GetError = some ("API错误: " ++ r.Info ++ " (代码: " ++ r.InfoCode ++ ")") := by
      unfold BaseResponse.GetError
      simp [hf]
    refine ⟨by rw [hg]; simp, hg, ⟨"API错误: ", " (代码: ", ")", hg⟩⟩

/-- C11 at the statuses `"0"`, empty and `"01"`. -/
theorem base_response_success_witness :
    (invalidKeyBase.Status ≠ "1" ∧
      invalidKeyBase.GetError
        = some ("API错误: " ++ invalidKeyBase.Info ++ " (代码: " ++ invalidKeyBase.InfoCode
            ++ ")")) ∧
    ((BaseResponse.mk "" "x" "y").Status ≠ "1" ∧ (BaseResponse.mk "" "x" "y").GetError ≠ none) ∧
    ((BaseResponse.mk "01" "x" "y").Status ≠ "1" ∧
      (BaseResponse.mk "01" "x" "y").GetError ≠ none) :=
  ⟨⟨by decide, ((base_response_success invalidKeyBase).2.2 (by decide)).2.1⟩,
    ⟨by decide, ((base_response_success (BaseResponse.mk "" "x" "y")).2.2 (by decide)).1⟩,
    ⟨by decide, ((base_response_success (BaseResponse.mk "01" "x" "y")).2.2 (by decide)).1⟩⟩

/-- C12. Fingerprint format: when the parameters serialize to `data`, the key
is the prefix, `":"` and the lowercase hexadecimal rendering of the 16-byte MD5
digest of `data`; so it is the prefix followed by 33 characters (33 bytes), the
last 32 of which are in `0-9a-f`. -/
theorem fingerprint_format {P : Type} (marshal : P → Except String String)
    (pfx : String) (params : P) (data : String) (hser : marshal params = .ok data) :
    generateCacheKey marshal pfx params = fingerprint pfx data ∧
    generateCacheKey marshal pfx params = pfx ++ ":" ++ hexLower (md5Sum data) ∧
    (md5Sum data).length = 16 ∧
    (∀ b ∈ md5Sum data, b < 256) ∧
    (generateCacheKey marshal pfx params).length = pfx.length + 33 ∧
    (stringBytes (generateCacheKey marshal pfx params)).length
      = (stringBytes pfx).length + 33 ∧
    pfx.data <+: (generateCacheKey marshal pfx params).data ∧
    (generateCacheKey marshal pfx params).data.drop
        ((generateCacheKey marshal pfx params).length - 32)
      = (hexLower (md5Sum data)).data ∧
    (hexLower (md5Sum data)).length = 32 ∧
    (∀ ch ∈ (hexLower (md5Sum data)).data, isLowerHex ch = true) := by
  have hlt : ∀ b ∈ md5Sum data, b < 256 := md5_sum_lt _
  have hlen : (md5Sum data).length = 16 := md5_sum_length _
  have hhex : hexBytes (md5Sum data) = hexLower (md5Sum data) := hexBytes_eq_hexLower _ hlt
  have hkey : generateCacheKey marshal pfx params = pfx ++ ":" ++ hexLower (md5Sum data) := by
    unfold generateCacheKey
    simp only [hser, hhex]
  have hl32 : (hexLower (md5Sum data)).data.length = 32 := by
    rw [← hhex, hexBytes_length, hlen]
  have hdata : (generateCacheKey marshal pfx params).data
      = pfx.data ++ ':' :: (hexLower (md5Sum data)).data := by
    rw [hkey]
    simp [String.data_append]
  have hklen : (generateCacheKey marshal pfx params).length = pfx.length + 33 := by
    simp only [String.length, hdata, List.length_append, List.length_cons, hl32]
  refine ⟨hkey, hkey, hlen, hlt, hklen, ?_, ⟨_, hdata.symm⟩, ?_, hl32, ?_⟩
  · rw [hkey, stringBytes_append, stringBytes_append, ← hhex, List.length_append,
      List.length_append, stringBytes_hexBytes_length, hlen]
    rfl
  · rw [hklen, hdata]
    have : pfx.length + 33 - 32 = (pfx.data ++ [':']).length := by
      rw [List.length_append, List.length_singleton]
      show pfx.data.length + 33 - 32 = pfx.data.length + 1
      omega
    rw [this, show pfx.data ++ ':' :: (hexLower (md5Sum data)).data
      = (pfx.data ++ [':']) ++ (hexLower (md5Sum data)).data by simp,
      List.drop_left]
  · rw [← hhex]
    exact hexBytes_isLowerHex _

set_option maxRecDepth 100000 in
/-- C12 at the request of `TestIP`: the key of `{"IP":"114.247.50.2"}` under the
prefix `ip`. -/
theorem fingerprint_format_witness :
    marshalIPRequest demoIPRequest = .ok "\x7b\"IP\":\"114.247.50.2\"\x7d" ∧
    generateCacheKey marshalIPRequest "ip" demoIPRequest
      = "ip" ++ ":" ++ hexLower (md5Sum "\x7b\"IP\":\"114.247.50.2\"\x7d") ∧
    hexLower (md5Sum "\x7b\"IP\":\"114.247.50.2\"\x7d") = "a1a774c6d4f11a20eb51d9715b6389d2" ∧
    (generateCacheKey marshalIPRequest "ip" demoIPRequest).length = ("ip" : String).length + 33 :=
  have h := fingerprint_format marshalIPRequest "ip" demoIPRequest
    "\x7b\"IP\":\"114.247.50.2\"\x7d" rfl
  ⟨rfl, h.2.1, by decide, h.2.2.2.2.1⟩

end Amap
